import Mathlib

/-!
Verification of the roster normalization / filter / bulk-sync logic of
`src/app.py` (a Streamlit dashboard over a Google Sheets backing store).

The embedding is a shallow one:
* a spreadsheet cell (as returned by `gspread`'s `get_all_records`, or as
  parsed from a CSV by `pandas.read_csv`) is a `Cell`: a string, an integer,
  a float (modelled as a rational), or a missing value (`pd.NA` / `NaN`);
* a pandas `DataFrame` is a `DF`: an explicit row count together with a list
  of labelled columns (labels may repeat, exactly as in pandas);
* fallible pandas operations are modelled in `Except String`, and the
  `try/except` blocks of the source become `match` on the `Except` value.

All string handling is over the ASCII fragment (the canonical column names
and every input appearing in a theorem below are ASCII), so Python's
`str.lower` / `str.strip` coincide with the character-wise maps used here.
-/

/-- A single spreadsheet/CSV cell value. `gspread.get_all_records` numericises
cells, so a cell is a string, an int, a float (here: a rational), or missing
(`pandas` `NA`/`NaN`, which arises from coercion or from filling absent
columns). -/
inductive Cell where
  | s (v : String)
  | i (v : Int)
  | f (v : Rat)
  | na
deriving DecidableEq, Repr

/-- Result of `pd.to_numeric(·, errors='coerce')` followed by
`.astype('Int64')` on one value: an integer, a finite non-integral number
(which makes `astype('Int64')` raise), or `NaN`/`NA` (kept as missing). -/
inductive NumParse where
  | int (n : Int)
  | nonint
  | nan
deriving DecidableEq, Repr

/-- Python `str.strip` on a character list: drop leading and trailing
whitespace. -/
def trimCharsList (cs : List Char) : List Char :=
  ((cs.dropWhile Char.isWhitespace).reverse.dropWhile Char.isWhitespace).reverse

/-- Character-wise ASCII lower-casing (Python `str.lower` on ASCII text). -/
def lowerStr (s : String) : String :=
  String.mk (s.data.map Char.toLower)

/-- Column-name canonicalization of `fetch_data` (src/app.py line 67):
`str.lower().str.strip().str.replace(' ', '_')`. -/
def normKey (k : String) : String :=
  String.mk ((trimCharsList (k.data.map Char.toLower)).map fun c =>
    if c = ' ' then '_' else c)

/-- Column-name canonicalization of the CSV import (src/app.py lines 228 and
248): `str.lower().str.strip()` — no space/underscore replacement there. -/
def normKeyCsv (k : String) : String :=
  String.mk (trimCharsList (k.data.map Char.toLower))

/-- Numeric value of a digit list, most significant first. -/
def digitsVal (cs : List Char) : Nat :=
  cs.foldl (fun a c => a * 10 + (c.toNat - 48)) 0

/-- Build the classification of a parsed decimal: `sign * digits * 10^shift`.
Integral iff `shift ≥ 0` or the dropped low digits are all zero. -/
def mkParsed (sign : Int) (digits : Nat) (shift : Int) : NumParse :=
  if 0 ≤ shift then .int (sign * digits * 10 ^ shift.toNat)
  else if digits % 10 ^ (-shift).toNat = 0 then
    .int (sign * (digits / 10 ^ (-shift).toNat))
  else .nonint

/-- Parse the exponent tail (`e`/`E` already consumed) and finish. -/
def parseExpTail (sign : Int) (digits : Nat) (fracLen : Nat) (t : List Char) :
    NumParse :=
  let (esign, t') : Int × List Char :=
    match t with
    | '-' :: r => (-1, r)
    | '+' :: r => (1, r)
    | r => (1, r)
  let (ed, t'') := t'.span Char.isDigit
  if ed = [] ∨ t'' ≠ [] then .nan
  else mkParsed sign digits (esign * (digitsVal ed : Int) - (fracLen : Int))

/-- Model of string parsing inside `pd.to_numeric(·, errors='coerce')`:
strip whitespace, optional sign, decimal digits with optional fraction and
exponent; `inf`/`infinity` parse to a non-integral float; anything else
coerces to `NaN` (`.nan`). -/
def parseNumList (cs0 : List Char) : NumParse :=
  let cs := trimCharsList cs0
  match cs with
  | [] => .nan
  | _ =>
    let (sign, rest) : Int × List Char :=
      match cs with
      | '-' :: t => (-1, t)
      | '+' :: t => (1, t)
      | t => (1, t)
    let low := rest.map Char.toLower
    if low = ['i', 'n', 'f'] ∨ low = ['i', 'n', 'f', 'i', 'n', 'i', 't', 'y']
    then .nonint
    else if low = ['n', 'a', 'n'] then .nan
    else
      let (ip, r1) := rest.span Char.isDigit
      let (fp, r2) : List Char × List Char :=
        match r1 with
        | '.' :: t => t.span Char.isDigit
        | _ => ([], r1)
      if ip = [] ∧ fp = [] then .nan
      else
        let digits := digitsVal (ip ++ fp)
        match r2 with
        | [] => mkParsed sign digits (0 - (fp.length : Int))
        | 'e' :: t => parseExpTail sign digits fp.length t
        | 'E' :: t => parseExpTail sign digits fp.length t
        | _ => .nan

/-- `pd.to_numeric(·, errors='coerce')` on one cell, classified for the
subsequent `.astype('Int64')`. -/
def classify (c : Cell) : NumParse :=
  match c with
  | .na => .nan
  | .i n => .int n
  | .f q => if q.den = 1 then .int q.num else .nonint
  | .s v => parseNumList v.data

/-- The per-cell effect of `pd.to_numeric(..., errors='coerce').astype('Int64')`
when the whole column is integral-or-missing: integers survive, everything
unparseable becomes `NA`. -/
def coerceCell (c : Cell) : Cell :=
  match classify c with
  | .int n => .i n
  | _ => .na

/-- A pandas DataFrame: an explicit row count and labelled columns (labels
may repeat, as in pandas). Every operation below maintains the invariant
that each column's length equals `nrows`. -/
structure DF where
  nrows : Nat
  cols : List (String × List Cell)
deriving DecidableEq, Repr

/-- The column labels, in order. -/
def DF.labels (df : DF) : List String :=
  df.cols.map (·.1)

/-- `pd.DataFrame(columns=req)`: an empty frame typed to the given columns. -/
def DF.emptyWith (req : List String) : DF :=
  { nrows := 0, cols := req.map fun c => (c, []) }

/-- The values of the first column labelled `c` (empty if absent) — used to
state theorems about single columns. -/
def DF.colOf (df : DF) (c : String) : List Cell :=
  match df.cols.find? (fun p => p.1 = c) with
  | some p => p.2
  | none => []

/-- A raw worksheet / CSV: the header row and the data rows, exactly as
`get_all_records` (resp. `read_csv`) delivers them. Short data rows are
padded with the empty string, as `gspread` pads them. -/
structure RawTable where
  header : List String
  rows : List (List Cell)
deriving DecidableEq, Repr

/-- Row access with `gspread`'s padding of short rows by `''`. -/
def getPad (r : List Cell) (j : Nat) : Cell :=
  r.getD j (.s "")

/-- The frame `pd.DataFrame(records)` built from a raw table with distinct
header keys: one column per header key, in header order. -/
def buildDF (t : RawTable) : DF :=
  { nrows := t.rows.length,
    cols := t.header.enum.map fun jk =>
      (jk.2, t.rows.map fun r => getPad r jk.1) }

/-- `pd.DataFrame(worksheet.get_all_records())` (resp. of `read_csv`'s
records). `get_all_records` raises on duplicate header values, modelled as
an error. -/
def buildDFE (t : RawTable) : Except String DF :=
  if t.header.Nodup then .ok (buildDF t)
  else .error "the header row in the worksheet is not unique"

/-- `if '' in df.columns: df = df.drop(columns=[''])` (src/app.py line 66). -/
def dropEmptyCols (df : DF) : DF :=
  if df.cols.any (fun p => p.1 = "") then
    { df with cols := df.cols.filter fun p => ¬ p.1 = "" }
  else df

/-- Relabel all columns by a key-normalization function. -/
def renameCols (f : String → String) (df : DF) : DF :=
  { df with cols := df.cols.map fun p => (f p.1, p.2) }

/-- One step of `if col not in df.columns: df[col] = pd.NA` (src/app.py
lines 68-69): a missing column is appended at the end, filled with `NA`. -/
def addMissingStep (d : DF) (c : String) : DF :=
  if d.cols.any (fun p => p.1 = c) then d
  else { d with cols := d.cols ++ [(c, List.replicate d.nrows .na)] }

/-- `for col in required: if col not in df.columns: df[col] = pd.NA`
(src/app.py lines 68-69). -/
def addMissing (required : List String) (df : DF) : DF :=
  required.foldl addMissingStep df

/-- `pd.to_numeric(col, errors='coerce').astype('Int64')` on one column:
raises iff some value is a finite non-integral number. -/
def coerceCol (vals : List Cell) : Except String (List Cell) :=
  if vals.any (fun v => classify v = .nonint) then
    .error "cannot safely cast non-equivalent float64 to int64"
  else .ok (vals.map coerceCell)

/-- `if col in df.columns: df[col] = pd.to_numeric(df[col], ...).astype('Int64')`
for one label: absent label is a no-op; a duplicated label makes
`pd.to_numeric` receive a DataFrame and raise; otherwise the single matching
column is replaced in place. -/
def coerceOne (df : DF) (c : String) : Except String DF :=
  if 2 ≤ df.cols.countP (fun p => p.1 = c) then
    .error "to_numeric applied to a DataFrame"
  else
    match df.cols.find? (fun p => p.1 = c) with
    | none => .ok df
    | some p =>
      match coerceCol p.2 with
      | .error e => .error e
      | .ok v =>
        .ok { df with cols := df.cols.map fun q => if q.1 = c then (c, v) else q }

/-- The numeric columns of the player schema (`NUMERIC_COLS`, and
`extended_numeric_cols = list(set(NUMERIC_COLS + ['ano']))` equals the same
three pairwise-distinct labels, so a fixed iteration order is faithful). -/
def NUMERIC_COLS : List String := ["ano", "gols", "minutagem"]

/-- `df[required_columns]` (src/app.py line 74): label-based projection; a
repeated label contributes every column carrying it. -/
def projectCols (required : List String) (df : DF) : DF :=
  { nrows := df.nrows,
    cols := required.flatMap fun c => df.cols.filter fun p => p.1 = c }

def JOGADORES_COLS : List String :=
  ["nome", "ano", "posicao", "competicao", "gols", "minutagem", "categoria"]

def TITULOS_COLS : List String := ["categoria", "titulo", "ano"]

def TRANSFERMARKT_COLS : List String :=
  ["jogador", "valor_de_mercado", "contrato_ate", "link"]

/-- The body of the `try` block of `fetch_data` (src/app.py lines 63-74).
The loop over `extended_numeric_cols = list(set(NUMERIC_COLS + ['ano']))` —
the three pairwise-distinct labels `ano`, `gols`, `minutagem`, whose
processing steps commute — is unrolled in a fixed order. -/
def fetchPipeline (t : RawTable) (required : List String) : Except String DF := do
  let df0 ← buildDFE t
  let df1 := addMissing required (renameCols normKey (dropEmptyCols df0))
  let df2 ← coerceOne df1 "ano"
  let df3 ← coerceOne df2 "gols"
  let df4 ← coerceOne df3 "minutagem"
  pure (projectCols required df4)

/-- `fetch_data` (src/app.py lines 60-77), together with the list of
`st.error` messages it emits: a missing worksheet or an empty record list
yields the empty canonical frame silently; an exception inside the `try`
block is caught, reported once, and also yields the empty canonical frame. -/
def fetch_logged (ws : Option RawTable) (required : List String) :
    DF × List String :=
  match ws with
  | none => (DF.emptyWith required, [])
  | some t =>
    if t.rows.isEmpty then (DF.emptyWith required, [])
    else
      match fetchPipeline t required with
      | .ok df => (df, [])
      | .error e => (DF.emptyWith required, ["Erro ao processar dados da aba: " ++ e])

/-- `fetch_data`'s returned frame. -/
def fetch_data (ws : Option RawTable) (required : List String) : DF :=
  (fetch_logged ws required).1

/-- A connected spreadsheet: its named worksheets ("tabs"). -/
structure Spreadsheet where
  tabs : List (String × RawTable)
deriving DecidableEq, Repr

/-- `get_worksheet` (src/app.py lines 53-58): a missing tab returns `None`
and, per the source comment, shows no error. -/
def get_worksheet (s : Spreadsheet) (name : String) : Option RawTable :=
  (s.tabs.find? fun p => p.1 = name).map (·.2)

/-- `load_all_data` on a forced refresh (src/app.py lines 109-125), paired
with the `st.error` messages emitted. When `conectar_sheets` returns `None`
it has itself emitted exactly one `st.error` (lines 33 and 40 are the only
`None` paths), accounted for here; the three reads then yield empty
canonical-schema frames. -/
def load_all_data (conn : Option Spreadsheet) : (DF × DF × DF) × List String :=
  match conn with
  | some s =>
    let pj := fetch_logged (get_worksheet s "Jogadores") JOGADORES_COLS
    let pt := fetch_logged (get_worksheet s "Titulos") TITULOS_COLS
    let pm := fetch_logged (get_worksheet s "Transfermarkt") TRANSFERMARKT_COLS
    ((pj.1, pt.1, pm.1), pj.2 ++ pt.2 ++ pm.2)
  | none =>
    ((DF.emptyWith JOGADORES_COLS, DF.emptyWith TITULOS_COLS,
      DF.emptyWith TRANSFERMARKT_COLS),
     ["Erro de conexão com a planilha"])

/-- `df.reindex(columns=target, fill_value='')` (src/app.py lines 81 and 91):
keeps exactly the target labels in target order, fills absent targets with
`''`, drops everything else; pandas raises when the frame's labels contain
duplicates. -/
def reindexCols (target : List String) (df : DF) : Except String DF :=
  if df.labels.Nodup then
    .ok { nrows := df.nrows,
          cols := target.map fun c =>
            match df.cols.find? (fun p => p.1 = c) with
            | some p => (c, p.2)
            | none => (c, List.replicate df.nrows (.s "")) }
  else .error "cannot reindex on an axis with duplicate labels"

/-- The serialization of one cell by `.fillna('')`: missing values become
`''`, every other value is kept. -/
def serialCell (v : Cell) : Cell :=
  if v = Cell.na then Cell.s "" else v

/-- `.fillna('')` (src/app.py lines 82 and 92): missing values become `''`. -/
def fillnaEmpty (df : DF) : DF :=
  { df with cols := df.cols.map fun p => (p.1, p.2.map serialCell) }

/-- `.values.tolist()`: the row-major value lists of the frame. -/
def dfValuesTolist (df : DF) : List (List Cell) :=
  (List.range df.nrows).map fun i => df.cols.map fun p => p.2.getD i (.s "")

/-- The shared body of `adicionar_jogadores_massa` / `adicionar_titulos_massa`
(src/app.py lines 79-97): reindex to the target schema with `''` fill,
serialize missing as `''`, and append the rows to the worksheet. The `try`
of the source catches the reindex error and returns `False`; here the
`Except` value carries that distinction. -/
def massAppend (target : List String) (ws : RawTable) (df : DF) :
    Except String RawTable := do
  let r ← reindexCols target df
  pure { ws with rows := ws.rows ++ dfValuesTolist (fillnaEmpty r) }

/-- `adicionar_jogadores_massa` (src/app.py lines 79-87). -/
def adicionar_jogadores_massa (ws : RawTable) (df : DF) :
    Except String RawTable :=
  massAppend JOGADORES_COLS ws df

/-- `adicionar_titulos_massa` (src/app.py lines 89-97). -/
def adicionar_titulos_massa (ws : RawTable) (df : DF) :
    Except String RawTable :=
  massAppend TITULOS_COLS ws df

/-- The admin session state relevant to the players bulk import: the
`Jogadores` worksheet and the session's in-memory `df_jogadores`. -/
structure AdminJogState where
  ws : RawTable
  df : DF
deriving DecidableEq, Repr

/-- The CSV branch of `render_admin_tools` for players (src/app.py lines
226-234): `read_csv`, lower/strip the header, validate that every canonical
column is present (else reject with the canonical column list in the
message), coerce the numeric columns to `Int64` (an exception is caught by
the outer `except`), append via `adicionar_jogadores_massa`, and on success
reload the session frame from the (updated) worksheet. The reload models
`load_all_data(force_refresh=True)` with the connection and worksheet still
available. Returns the new session state and the emitted messages. -/
def importJogadoresCSV (s : AdminJogState) (csv : RawTable) :
    AdminJogState × List String :=
  match buildDFE csv with
  | .error e => (s, ["Ocorreu um erro ao processar o arquivo: " ++ e])
  | .ok df0 =>
    let df1 := renameCols normKeyCsv df0
    if JOGADORES_COLS.all (fun c => df1.cols.any fun p => p.1 = c) then
      match (do
          let a ← coerceOne df1 "ano"
          let b ← coerceOne a "gols"
          coerceOne b "minutagem" : Except String DF) with
      | .error e => (s, ["Ocorreu um erro ao processar o arquivo: " ++ e])
      | .ok df2 =>
        match adicionar_jogadores_massa s.ws df2 with
        | .ok ws' =>
          ({ ws := ws', df := fetch_data (some ws') JOGADORES_COLS },
           [toString df2.nrows ++ " jogadores adicionados!"])
        | .error e => (s, ["Erro ao enviar dados para a planilha: " ++ e])
    else
      (s, ["Erro no CSV! Colunas esperadas: " ++ ", ".intercalate JOGADORES_COLS])

/-- A row of the in-memory players frame, used by the filter engine of
`render_main_page` (src/app.py lines 160-165): one `Cell` per canonical
column. -/
structure PlayerRow where
  nome : Cell
  ano : Cell
  posicao : Cell
  competicao : Cell
  gols : Cell
  minutagem : Cell
  categoria : Cell
deriving DecidableEq, Repr

/-- The sidebar filter values (src/app.py line 155). -/
structure Filtros where
  nome : String
  categoria : String
  posicao : String
  competicao : String
deriving DecidableEq, Repr

/-- Does the pattern match a prefix of the text? Models Python `re` matching
for the fragment of regular expressions consisting of literal characters and
the `.` wildcard (the only constructs exercised below). -/
def patMatchAt : List Char → List Char → Bool
  | [], _ => true
  | _ :: _, [] => false
  | p :: ps, c :: cs => (p = '.' || p = c) && patMatchAt ps cs

/-- `re.search`: does the pattern match at some position of the text? -/
def regexSearch (p : List Char) : List Char → Bool
  | [] => patMatchAt p []
  | c :: cs => patMatchAt p (c :: cs) || regexSearch p cs

/-- `Series.str.contains(pat, case=False, na=False)` on one cell: `re` search
with `IGNORECASE` (modelled by lower-casing both sides, which is equivalent
on the ASCII literal-and-dot fragment); non-string cells give `NaN`, which
`na=False` turns into `False`. -/
def strContainsMask (pat : String) (c : Cell) : Bool :=
  match c with
  | .s v => regexSearch (lowerStr pat).data (lowerStr v).data
  | _ => false

/-- The boolean mask of `df[col] == valor`: `pd.NA` compared with a string
yields `NA` (`none`), which poisons the mask. -/
def eqMask (c : Cell) (s : String) : Option Bool :=
  match c with
  | .s v => some (v = s)
  | .na => none
  | _ => some false

/-- `df_filtrado[df_filtrado[col] == valor]`: pandas raises when the boolean
mask contains `NA`. -/
def aplicaEq (get : PlayerRow → Cell) (s : String) (rows : List PlayerRow) :
    Except String (List PlayerRow) :=
  if rows.any (fun r => (eqMask (get r) s).isNone) then
    .error "cannot mask with an array containing NA / NaN values"
  else .ok (rows.filter fun r => (eqMask (get r) s).getD false)

/-- The filter chain of `render_main_page` (src/app.py lines 160-165):
an empty collection skips the chain; an empty name filter and the sentinel
`"Todas"` deactivate the corresponding predicates; active predicates are
applied in sequence. -/
def aplicarFiltros (f : Filtros) (rows : List PlayerRow) :
    Except String (List PlayerRow) :=
  if rows.isEmpty then .ok rows
  else
    let r1 := if f.nome = "" then rows
              else rows.filter fun r => strContainsMask f.nome r.nome
    Except.bind
      (if f.categoria = "Todas" then Except.ok r1
       else aplicaEq (fun r => r.categoria) f.categoria r1) fun r2 =>
    Except.bind
      (if f.posicao = "Todas" then Except.ok r2
       else aplicaEq (fun r => r.posicao) f.posicao r2) fun r3 =>
    if f.competicao = "Todas" then Except.ok r3
    else aplicaEq (fun r => r.competicao) f.competicao r3

/-- Modelled from the spec: no delete operation exists in `src/app.py` (it
lives in other variants of this repository); §6 of the spec describes the
backing-store write contract as "optionally delete a row by 1-based position
(header row occupies position 1, so first data row is position 2)". The
worksheet is its header row followed by the data rows; this deletes the row
at the given 1-based position. -/
def delete_row_by_position (store : List (List Cell)) (p : Nat) :
    List (List Cell) :=
  store.eraseIdx (p - 1)

/-- Modelled from the spec: "Deleting the record at in-memory index `i`
issues a backing-store delete at position `i + 2`" — the delete operation as
issued by the UI for the record at in-memory index `i`. -/
def delete_player_record (header : List Cell) (dataRows : List (List Cell))
    (i : Nat) : List (List Cell) :=
  delete_row_by_position (header :: dataRows) (i + 2)

/-! ### Generic helper lemmas -/

@[simp]
theorem exceptBind_ok {α β : Type} (x : α) (f : α → Except String β) :
    (Except.ok x >>= f) = f x := rfl

@[simp]
theorem exceptBindE_ok {α β : Type} (x : α) (f : α → Except String β) :
    Except.bind (Except.ok x) f = f x := rfl

@[simp]
theorem exceptBind_error {α β : Type} (e : String) (f : α → Except String β) :
    ((Except.error e : Except String α) >>= f) = .error e := rfl

theorem coerceCell_shape (v : Cell) : (∃ n, coerceCell v = .i n) ∨ coerceCell v = .na := by
  unfold coerceCell
  cases classify v with
  | int n => exact .inl ⟨n, rfl⟩
  | nonint => exact .inr rfl
  | nan => exact .inr rfl

theorem coerceCell_of_nan {v : Cell} (h : classify v = .nan) : coerceCell v = .na := by
  unfold coerceCell
  rw [h]

theorem coerceCell_na : coerceCell .na = .na := rfl

theorem coerceCol_ok {vals : List Cell} (h : ∀ v ∈ vals, ¬ classify v = .nonint) :
    coerceCol vals = .ok (vals.map coerceCell) := by
  unfold coerceCol
  rw [if_neg]
  simp only [List.any_eq_true, decide_eq_true_eq, not_exists]
  intro v
  rw [not_and]
  exact h v

/-- The label of a column survives the in-place replacement of `coerceOne`. -/
theorem label_replace (c : String) (v : List Cell) (q : String × List Cell) :
    (if q.1 = c then (c, v) else q).1 = q.1 := by
  by_cases h : q.1 = c <;> simp [h]

theorem labels_map_replace (c : String) (v : List Cell)
    (cols : List (String × List Cell)) :
    (cols.map fun q => if q.1 = c then (c, v) else q).map (·.1) = cols.map (·.1) := by
  induction cols with
  | nil => rfl
  | cons a l ih => simp [label_replace, ih]

/-- `coerceOne` preserves row count and labels whenever it succeeds. -/
theorem coerceOne_ok_labels {df df' : DF} {c : String}
    (h : coerceOne df c = .ok df') :
    df'.labels = df.labels ∧ df'.nrows = df.nrows := by
  unfold coerceOne at h
  split at h
  · exact absurd h (by simp)
  · split at h
    · cases h; exact ⟨rfl, rfl⟩
    · split at h
      · exact absurd h (by simp)
      · cases h
        exact ⟨labels_map_replace .., rfl⟩

theorem labels_emptyWith (req : List String) : (DF.emptyWith req).labels = req := by
  unfold DF.emptyWith DF.labels
  rw [List.map_map]
  exact List.map_id req

theorem nrows_emptyWith (req : List String) : (DF.emptyWith req).nrows = 0 := rfl

/-- Membership in the label list is what `col in df.columns` tests. -/
theorem any_label_iff (df : DF) (c : String) :
    (df.cols.any fun p => p.1 = c) = true ↔ c ∈ df.labels := by
  simp only [DF.labels, List.any_eq_true, List.mem_map, decide_eq_true_eq]

/-! ### Lemmas about locating columns by label -/

theorem find?_label_some {df : DF} {c : String} (h : c ∈ df.labels) :
    ∃ q, df.cols.find? (fun p => p.1 = c) = some q ∧ q.1 = c ∧ q.2 = df.colOf c := by
  obtain ⟨p, hp, hpc⟩ := List.mem_map.mp h
  have hs : (df.cols.find? (fun p => p.1 = c)).isSome := by
    rw [List.find?_isSome]
    exact ⟨p, hp, by simp [hpc]⟩
  obtain ⟨q, hq⟩ := Option.isSome_iff_exists.mp hs
  have hqc : q.1 = c := by simpa using List.find?_some hq
  exact ⟨q, hq, hqc, by unfold DF.colOf; rw [hq]⟩

theorem find?_label_none {df : DF} {c : String} (h : c ∉ df.labels) :
    df.cols.find? (fun p => p.1 = c) = none := by
  rw [List.find?_eq_none]
  intro p hp
  simp only [decide_eq_true_eq]
  exact fun hc => h (List.mem_map.mpr ⟨p, hp, hc⟩)

theorem colOf_of_not_mem {df : DF} {c : String} (h : c ∉ df.labels) :
    df.colOf c = [] := by
  unfold DF.colOf
  rw [find?_label_none h]

theorem countP_label_le_one {df : DF} (hnd : df.labels.Nodup) (c : String) :
    df.cols.countP (fun p => p.1 = c) ≤ 1 := by
  have h1 : df.cols.countP (fun p => p.1 = c) = df.labels.countP (fun x => x = c) := by
    unfold DF.labels
    rw [List.countP_map]
    rfl
  have h2 : df.labels.countP (fun x => x = c) = df.labels.count c := by
    unfold List.count
    exact List.countP_congr fun x _ => by simp
  rw [h1, h2]
  exact List.nodup_iff_count_le_one.mp hnd c

theorem find?_replace (cols : List (String × List Cell)) (c c' : String)
    (v : List Cell) :
    (cols.map fun q => if q.1 = c then (c, v) else q).find? (fun p => p.1 = c') =
      (cols.find? (fun p => p.1 = c')).map fun q =>
        if q.1 = c then (c, v) else q := by
  rw [List.find?_map]
  have he : ((fun p => decide (p.1 = c')) ∘ fun q => if q.1 = c then (c, v) else q)
      = fun p : String × List Cell => decide (p.1 = c') := by
    funext q
    simp only [Function.comp_apply, label_replace]
  rw [he]

/-- General success lemma for `coerceOne`: with no duplicated label, and no
finite non-integral value in the (possibly absent) column, the coercion
succeeds and rewrites exactly that column by `coerceCell`. -/
theorem coerceOne_ok_of {df : DF} {c : String}
    (hcount : df.cols.countP (fun p => p.1 = c) ≤ 1)
    (hvals : ∀ v ∈ df.colOf c, ¬ classify v = .nonint) :
    ∃ df', coerceOne df c = .ok df' ∧ df'.nrows = df.nrows ∧
      df'.labels = df.labels ∧
      ∀ c', df'.colOf c' =
        if c' = c then (df.colOf c).map coerceCell else df.colOf c' := by
  unfold coerceOne
  rw [if_neg (by omega)]
  cases hfind : df.cols.find? (fun p => p.1 = c) with
  | none =>
    refine ⟨df, rfl, rfl, rfl, fun c' => ?_⟩
    by_cases hc : c' = c
    · subst hc
      have : df.colOf c' = [] := by unfold DF.colOf; rw [hfind]
      simp [this]
    · simp [hc]
  | some p =>
    have hpc : p.1 = c := by simpa using List.find?_some hfind
    have hp2 : p.2 = df.colOf c := by unfold DF.colOf; rw [hfind]
    dsimp only
    rw [hp2, coerceCol_ok hvals]
    dsimp only
    refine ⟨_, rfl, rfl, labels_map_replace .., fun c' => ?_⟩
    unfold DF.colOf
    dsimp only
    rw [find?_replace, hfind]
    cases hf2 : List.find? (fun p => decide (p.1 = c')) df.cols with
    | none =>
      by_cases hc : c' = c
      · subst hc
        rw [hfind] at hf2
        cases hf2
      · simp [hc]
    | some q =>
      have hqc : q.1 = c' := by simpa using List.find?_some hf2
      by_cases hc : c' = c
      · subst hc
        rw [hfind] at hf2
        cases hf2
        simp [hpc]
      · simp [hqc, hc]

/-! ### Lemmas about `addMissing` -/

theorem addMissing_cons (c : String) (req : List String) (df : DF) :
    addMissing (c :: req) df = addMissing req (addMissingStep df c) := rfl

theorem addMissingStep_nrows (d : DF) (c : String) :
    (addMissingStep d c).nrows = d.nrows := by
  unfold addMissingStep
  split <;> rfl

theorem addMissing_nrows (req : List String) (df : DF) :
    (addMissing req df).nrows = df.nrows := by
  induction req generalizing df with
  | nil => rfl
  | cons c req ih =>
    rw [addMissing_cons, ih, addMissingStep_nrows]

theorem mem_labels_addMissingStep {d : DF} {c' : String} (c : String)
    (h : c' ∈ d.labels) : c' ∈ (addMissingStep d c).labels := by
  unfold addMissingStep
  split
  · exact h
  · unfold DF.labels at *
    simp only [List.map_append]
    exact List.mem_append_left _ h

theorem mem_labels_addMissingStep_self (d : DF) (c : String) :
    c ∈ (addMissingStep d c).labels := by
  unfold addMissingStep
  split
  · next h => exact (any_label_iff d c).mp h
  · unfold DF.labels
    simp

theorem labels_addMissing_grow {df : DF} {c : String} (req : List String)
    (h : c ∈ df.labels) : c ∈ (addMissing req df).labels := by
  induction req generalizing df with
  | nil => exact h
  | cons c' req ih =>
    rw [addMissing_cons]
    exact ih (mem_labels_addMissingStep c' h)

theorem mem_labels_addMissing {req : List String} {c : String} (df : DF)
    (h : c ∈ req) : c ∈ (addMissing req df).labels := by
  induction req generalizing df with
  | nil => cases h
  | cons c' req ih =>
    rw [addMissing_cons]
    rcases List.mem_cons.mp h with rfl | hm
    · exact labels_addMissing_grow req (mem_labels_addMissingStep_self df c)
    · exact ih _ hm

theorem colOf_addMissingStep_of_mem {d : DF} {c' : String} (c : String)
    (h : c' ∈ d.labels) : (addMissingStep d c).colOf c' = d.colOf c' := by
  unfold addMissingStep
  split
  · rfl
  · obtain ⟨q, hq, hqc, hq2⟩ := find?_label_some h
    unfold DF.colOf
    dsimp only
    rw [List.find?_append, hq]
    rfl

theorem colOf_addMissing_of_mem {df : DF} {c : String} (req : List String)
    (h : c ∈ df.labels) : (addMissing req df).colOf c = df.colOf c := by
  induction req generalizing df with
  | nil => rfl
  | cons c' req ih =>
    rw [addMissing_cons, ih (mem_labels_addMissingStep c' h),
      colOf_addMissingStep_of_mem c' h]

theorem colOf_addMissingStep_absent {d : DF} {c : String} (h : c ∉ d.labels) :
    (addMissingStep d c).colOf c = List.replicate d.nrows .na := by
  unfold addMissingStep
  rw [if_neg (fun hx => h ((any_label_iff d c).mp hx))]
  unfold DF.colOf
  dsimp only
  rw [List.find?_append, find?_label_none h]
  simp

theorem colOf_addMissing_absent {c : String} (req : List String) (df : DF)
    (hc : c ∈ req) (h : c ∉ df.labels) :
    (addMissing req df).colOf c = List.replicate df.nrows .na := by
  induction req generalizing df with
  | nil => cases hc
  | cons c' req ih =>
    rw [addMissing_cons]
    by_cases hcc : c' = c
    · subst hcc
      rw [colOf_addMissing_of_mem req (mem_labels_addMissingStep_self df c'),
        colOf_addMissingStep_absent h]
    · rcases List.mem_cons.mp hc with rfl | hm
      · exact absurd rfl hcc
      · have habs : c ∉ (addMissingStep df c').labels := by
          unfold addMissingStep
          split
          · exact h
          · unfold DF.labels at *
            simp only [List.map_append]
            intro hx
            rcases List.mem_append.mp hx with hx | hx
            · exact h hx
            · simp at hx
              exact hcc hx.symm
        rw [ih _ hm habs, addMissingStep_nrows]

theorem labels_addMissingStep_nodup {d : DF} (c : String)
    (h : d.labels.Nodup) : (addMissingStep d c).labels.Nodup := by
  unfold addMissingStep
  split
  · exact h
  · next hany =>
    unfold DF.labels at *
    simp only [List.map_append]
    rw [List.nodup_append]
    refine ⟨h, by simp, ?_⟩
    intro x hx hx2
    simp at hx2
    subst hx2
    exact hany ((any_label_iff d x).mpr hx)

theorem labels_addMissing_nodup (req : List String) {df : DF}
    (h : df.labels.Nodup) : (addMissing req df).labels.Nodup := by
  induction req generalizing df with
  | nil => exact h
  | cons c' req ih =>
    rw [addMissing_cons]
    exact ih (labels_addMissingStep_nodup c' h)

/-! ### Lemmas about projection, renaming, and frame construction -/

theorem projectCols_nrows (req : List String) (df : DF) :
    (projectCols req df).nrows = df.nrows := rfl

theorem find?_filter_self {α : Type} (p : α → Bool) (l : List α) :
    (l.filter p).find? p = l.find? p := by
  induction l with
  | nil => rfl
  | cons a l ih =>
    by_cases h : p a
    · rw [List.filter_cons_of_pos h]
      rw [List.find?_cons, List.find?_cons, h]
    · rw [List.filter_cons_of_neg h]
      rw [ih, List.find?_cons]
      cases hpa : p a with
      | true => exact absurd hpa h
      | false => rfl

theorem colOf_project {req : List String} {c : String} (df : DF)
    (h : c ∈ req) : (projectCols req df).colOf c = df.colOf c := by
  unfold projectCols DF.colOf
  dsimp only
  induction req with
  | nil => cases h
  | cons c' req ih =>
    rw [List.flatMap_cons, List.find?_append]
    by_cases hcc : c' = c
    · subst hcc
      rw [find?_filter_self]
      cases hf : df.cols.find? (fun p => p.1 = c') with
      | none =>
        rw [Option.none_or]
        have : ∀ x ∈ req.flatMap fun c => df.cols.filter fun p => p.1 = c,
            ¬ (fun p => decide (p.1 = c')) x = true := by
          intro x hx
          obtain ⟨cc, hcc2, hxf⟩ := List.mem_flatMap.mp hx
          exact (List.find?_eq_none.mp hf) x (List.mem_filter.mp hxf).1
        rw [List.find?_eq_none.mpr this]
      | some q => rw [Option.or_some]
    · have hnone : (df.cols.filter fun p => p.1 = c').find?
          (fun p => p.1 = c) = none := by
        rw [List.find?_eq_none]
        intro x hx
        have := (List.mem_filter.mp hx).2
        simp only [decide_eq_true_eq] at this ⊢
        rw [this]
        exact hcc
      rw [hnone, Option.none_or]
      exact ih (by rcases List.mem_cons.mp h with rfl | hm; exact absurd rfl hcc; exact hm)

theorem filter_label_eq {df : DF} {c : String} (hnd : df.labels.Nodup)
    (h : c ∈ df.labels) :
    (df.cols.filter fun p => p.1 = c).map (·.1) = [c] := by
  have hall : ∀ x ∈ df.cols.filter (fun p => p.1 = c), x.1 = c := by
    intro x hx
    have := (List.mem_filter.mp hx).2
    simpa using this
  have hlen : (df.cols.filter fun p => p.1 = c).length = 1 := by
    rw [← List.countP_eq_length_filter]
    refine le_antisymm (countP_label_le_one hnd c) ?_
    rw [Nat.succ_le_iff, List.countP_pos_iff]
    obtain ⟨p, hp, hpc⟩ := List.mem_map.mp h
    exact ⟨p, hp, by simp [hpc]⟩
  have hrep : (df.cols.filter fun p => p.1 = c).map (·.1) = List.replicate 1 c := by
    rw [List.eq_replicate_iff]
    refine ⟨by simp [hlen], ?_⟩
    intro b hb
    obtain ⟨x, hx, rfl⟩ := List.mem_map.mp hb
    exact hall x hx
  rw [hrep]
  rfl

theorem labels_project {req : List String} {df : DF} (hnd : df.labels.Nodup)
    (hsub : ∀ c ∈ req, c ∈ df.labels) : (projectCols req df).labels = req := by
  unfold projectCols DF.labels
  dsimp only
  rw [List.map_flatMap]
  induction req with
  | nil => rfl
  | cons c req ih =>
    rw [List.flatMap_cons, filter_label_eq hnd (hsub c (by simp))]
    rw [ih (fun c hc => hsub c (List.mem_cons_of_mem _ hc))]
    rfl

theorem labels_rename (f : String → String) (df : DF) :
    (renameCols f df).labels = df.labels.map f := by
  unfold renameCols DF.labels
  simp [List.map_map, Function.comp]

theorem renameCols_nrows (f : String → String) (df : DF) :
    (renameCols f df).nrows = df.nrows := rfl

theorem dropEmptyCols_nrows (df : DF) : (dropEmptyCols df).nrows = df.nrows := by
  unfold dropEmptyCols
  split <;> rfl

theorem dropEmptyCols_cols_sublist (df : DF) :
    (dropEmptyCols df).cols.Sublist df.cols := by
  unfold dropEmptyCols
  split
  · exact List.filter_sublist df.cols
  · exact List.Sublist.refl _

theorem labels_dropEmptyCols_sublist (df : DF) :
    (dropEmptyCols df).labels.Sublist df.labels := by
  exact (dropEmptyCols_cols_sublist df).map (·.1)

theorem labels_buildDF (t : RawTable) : (buildDF t).labels = t.header := by
  unfold buildDF DF.labels
  rw [List.map_map]
  exact List.enum_map_snd t.header

theorem buildDF_nrows (t : RawTable) : (buildDF t).nrows = t.rows.length := rfl

/-- Column-value extraction from any successful `coerceOne`. -/
theorem coerceOne_ok_colOf {df df' : DF} {c : String}
    (h : coerceOne df c = .ok df') (c' : String) :
    df'.colOf c' = if c' = c then (df.colOf c).map coerceCell else df.colOf c' := by
  unfold coerceOne at h
  split at h
  · exact absurd h (by simp)
  · split at h
    · next hfind =>
      cases h
      by_cases hc : c' = c
      · subst hc
        have : df.colOf c' = [] := by unfold DF.colOf; rw [hfind]
        simp [this]
      · simp [hc]
    · next p hfind =>
      have hpc : p.1 = c := by simpa using List.find?_some hfind
      have hp2 : p.2 = df.colOf c := by unfold DF.colOf; rw [hfind]
      split at h
      · exact absurd h (by simp)
      · next v hcc =>
        have hv : v = p.2.map coerceCell := by
          unfold coerceCol at hcc
          split at hcc
          · exact absurd hcc (by simp)
          · cases hcc
            rfl
        cases h
        unfold DF.colOf
        dsimp only
        rw [find?_replace, hfind]
        cases hf2 : List.find? (fun p => decide (p.1 = c')) df.cols with
        | none =>
          by_cases hc : c' = c
          · subst hc
            rw [hfind] at hf2
            cases hf2
          · simp [hc]
        | some q =>
          have hqc : q.1 = c' := by simpa using List.find?_some hf2
          by_cases hc : c' = c
          · subst hc
            rw [hfind] at hf2
            cases hf2
            simp [hpc, hv, hp2]
          · simp [hqc, hc]

/-- Facts about every successful run of the `fetch_data` pipeline on a
table whose normalized header keys are pairwise distinct: the canonical
labels, the row count, and the `NA` fill of absent canonical columns. -/
theorem fetchPipeline_ok_facts {t : RawTable} {req : List String} {df : DF}
    (hhdr : (t.header.map normKey).Nodup)
    (h : fetchPipeline t req = .ok df) :
    df.labels = req ∧ df.nrows = t.rows.length ∧
      ∀ c ∈ req, c ∉ t.header.map normKey →
        df.colOf c = List.replicate t.rows.length Cell.na := by
  have hnd0 : t.header.Nodup := List.Nodup.of_map _ hhdr
  unfold fetchPipeline buildDFE at h
  rw [if_pos hnd0] at h
  rw [exceptBind_ok] at h
  dsimp only at h
  set df1 := addMissing req (renameCols normKey (dropEmptyCols (buildDF t))) with hdf1
  have hlab_pre : (renameCols normKey (dropEmptyCols (buildDF t))).labels.Sublist
      (t.header.map normKey) := by
    rw [labels_rename]
    rw [← labels_buildDF t]
    exact (labels_dropEmptyCols_sublist (buildDF t)).map normKey
  have hnd1 : df1.labels.Nodup :=
    labels_addMissing_nodup req (hlab_pre.nodup (labels_buildDF t ▸ hhdr))
  have hnrows1 : df1.nrows = t.rows.length := by
    rw [hdf1, addMissing_nrows, renameCols_nrows, dropEmptyCols_nrows, buildDF_nrows]
  have hmem1 : ∀ c ∈ req, c ∈ df1.labels := fun c hc => mem_labels_addMissing _ hc
  have habs1 : ∀ c ∈ req, c ∉ t.header.map normKey →
      df1.colOf c = List.replicate t.rows.length Cell.na := by
    intro c hc hcn
    rw [hdf1, ← hnrows1, hdf1]
    rw [addMissing_nrows, renameCols_nrows, dropEmptyCols_nrows, buildDF_nrows]
    rw [← buildDF_nrows t, ← dropEmptyCols_nrows (buildDF t),
      ← renameCols_nrows normKey (dropEmptyCols (buildDF t))]
    exact colOf_addMissing_absent req _ hc
      (fun hx => hcn (hlab_pre.mem hx))
  cases h2 : coerceOne df1 "ano" with
  | error e => rw [h2] at h; exact absurd h (by simp)
  | ok df2 =>
  rw [h2, exceptBind_ok] at h
  cases h3 : coerceOne df2 "gols" with
  | error e => rw [h3] at h; exact absurd h (by simp)
  | ok df3 =>
  rw [h3, exceptBind_ok] at h
  cases h4 : coerceOne df3 "minutagem" with
  | error e => rw [h4] at h; exact absurd h (by simp)
  | ok df4 =>
  rw [h4, exceptBind_ok] at h
  have hdf : df = projectCols req df4 := by
    cases h
    rfl
  have hl2 := coerceOne_ok_labels h2
  have hl3 := coerceOne_ok_labels h3
  have hl4 := coerceOne_ok_labels h4
  have hlab4 : df4.labels = df1.labels := by rw [hl4.1, hl3.1, hl2.1]
  have hnrows4 : df4.nrows = t.rows.length := by
    rw [hl4.2, hl3.2, hl2.2, hnrows1]
  refine ⟨?_, ?_, ?_⟩
  · rw [hdf]
    exact labels_project (hlab4 ▸ hnd1) (fun c hc => hlab4 ▸ hmem1 c hc)
  · rw [hdf, projectCols_nrows, hnrows4]
  · intro c hc hcn
    rw [hdf, colOf_project _ hc]
    have hrep := habs1 c hc hcn
    by_cases e4 : c = "minutagem"
    · subst e4
      rw [coerceOne_ok_colOf h4 _, if_pos rfl, coerceOne_ok_colOf h3 _,
        if_neg (by decide), coerceOne_ok_colOf h2 _, if_neg (by decide), hrep,
        List.map_replicate, coerceCell_na]
    · by_cases e3 : c = "gols"
      · subst e3
        rw [coerceOne_ok_colOf h4 _, if_neg (by decide), coerceOne_ok_colOf h3 _,
          if_pos rfl, coerceOne_ok_colOf h2 _, if_neg (by decide), hrep,
          List.map_replicate, coerceCell_na]
      · by_cases e2 : c = "ano"
        · subst e2
          rw [coerceOne_ok_colOf h4 _, if_neg (by decide), coerceOne_ok_colOf h3 _,
            if_neg (by decide), coerceOne_ok_colOf h2 _, if_pos rfl, hrep,
            List.map_replicate, coerceCell_na]
        · rw [coerceOne_ok_colOf h4 _, if_neg e4, coerceOne_ok_colOf h3 _,
            if_neg e3, coerceOne_ok_colOf h2 _, if_neg e2, hrep]

theorem colOf_emptyWith (req : List String) (c : String) :
    (DF.emptyWith req).colOf c = [] := by
  unfold DF.colOf
  cases hf : (DF.emptyWith req).cols.find? (fun p => p.1 = c) with
  | none => rfl
  | some p =>
    have hm := List.mem_of_find?_eq_some hf
    unfold DF.emptyWith at hm
    obtain ⟨c', _, rfl⟩ := List.mem_map.mp hm
    rfl

/-! ### Claim C1 -/

/-- C1 (counterexample): with raw keys `"Nome"` and `"NOME"` — arbitrary
casing, as the claim allows — both normalize to `nome`, and `fetch_data`
returns a frame with a duplicated `nome` column: eight columns, not the
canonical seven. -/
theorem c1_duplicate_keys_break_canonical_columns :
    (fetch_data (some ⟨["Nome", "NOME"], [[.s "a", .s "b"]]⟩) JOGADORES_COLS).labels
        ≠ JOGADORES_COLS ∧
      (fetch_data (some ⟨["Nome", "NOME"], [[.s "a", .s "b"]]⟩) JOGADORES_COLS).labels
        = ["nome", "nome", "ano", "posicao", "competicao", "gols", "minutagem",
           "categoria"] := by
  constructor
  · decide
  · decide

/-- C1 (amended): for every raw table none of whose two header keys
normalize to the same canonical key, `fetch_data` returns a frame whose
columns are exactly the requested canonical column list, in canonical
order, with no extra columns — on the success path and on every caught
error path alike. -/
theorem c1_fetch_columns_canonical (t : RawTable) (req : List String)
    (hhdr : (t.header.map normKey).Nodup) :
    (fetch_data (some t) req).labels = req := by
  unfold fetch_data fetch_logged
  dsimp only
  split
  · exact labels_emptyWith req
  · cases hp : fetchPipeline t req with
    | ok df =>
      dsimp only
      exact (fetchPipeline_ok_facts hhdr hp).1
    | error e =>
      dsimp only
      exact labels_emptyWith req

/-- C1 (witness): the amended theorem applied to a concrete table with
oddly cased and spaced keys. -/
theorem c1_witness :
    (fetch_data (some ⟨["Nome ", "ANO", "Posicao", "competicao", "GOLS",
        " Minutagem", "Categoria"],
        [[.s "x", .i 2005, .s "ATA", .s "Copa", .i 1, .i 90, .s "Sub-20"]]⟩)
      JOGADORES_COLS).labels = JOGADORES_COLS :=
  c1_fetch_columns_canonical _ _ (by decide)

/-! ### Claim C7 -/

/-- C7 (counterexample): a raw table lacking the `categoria` column is
normalized with `categoria` filled by the missing marker `NA` — not by any
configured fallback string. -/
theorem c7_categoria_filled_with_na_not_fallback :
    (fetch_data (some ⟨["nome"], [[.s "x"]]⟩) JOGADORES_COLS).colOf "categoria"
        = [Cell.na] ∧
      ∀ fallback : String,
        (fetch_data (some ⟨["nome"], [[.s "x"]]⟩) JOGADORES_COLS).colOf "categoria"
          ≠ [Cell.s fallback] := by
  refine ⟨by decide, fun fallback h => ?_⟩
  have h1 : (fetch_data (some ⟨["nome"], [[.s "x"]]⟩) JOGADORES_COLS).colOf
      "categoria" = [Cell.na] := by decide
  rw [h1] at h
  simp at h

/-- C7 (amended): every canonical column absent from the raw rows —
`categoria` included — is inserted by the normalizer filled with the
missing marker `NA` in every row (never a zero, an empty string, or a
fallback string). -/
theorem c7_absent_columns_filled_with_missing (t : RawTable)
    (req : List String) (c : String) (hhdr : (t.header.map normKey).Nodup)
    (hc : c ∈ req) (habs : c ∉ t.header.map normKey) :
    (fetch_data (some t) req).colOf c =
      List.replicate (fetch_data (some t) req).nrows Cell.na := by
  unfold fetch_data fetch_logged
  dsimp only
  split
  · rw [colOf_emptyWith req c, nrows_emptyWith]
    rfl
  · cases hp : fetchPipeline t req with
    | ok df =>
      dsimp only
      obtain ⟨_, hn, habsv⟩ := fetchPipeline_ok_facts hhdr hp
      rw [hn, habsv c hc habs]
    | error e =>
      dsimp only
      rw [colOf_emptyWith req c, nrows_emptyWith]
      rfl

/-- C7 (witness): the amended theorem applied to a concrete one-column
table, every other canonical column being filled with `NA`. -/
theorem c7_witness :
    (fetch_data (some ⟨["nome"], [[.s "x"], [.s "y"]]⟩) JOGADORES_COLS).colOf "gols" =
      List.replicate
        (fetch_data (some ⟨["nome"], [[.s "x"], [.s "y"]]⟩) JOGADORES_COLS).nrows
        Cell.na :=
  c7_absent_columns_filled_with_missing _ _ _ (by decide) (by decide) (by decide)

/-! ### The canonical-header worksheet characterization -/

/-- Statement vocabulary: column `j` of the raw data rows, exactly as the
frame built by `fetch_data` carries it (short rows padded with `''`). -/
def rawColJ (rows : List (List Cell)) (j : Nat) : List Cell :=
  rows.map fun r => getPad r j

/-- Statement vocabulary: the frame produced from a worksheet whose header
is literally the canonical player header, with the `ano`/`gols`/`minutagem`
columns replaced by the given value lists. -/
def canonFrame (rows : List (List Cell)) (a g m : List Cell) : DF :=
  { nrows := rows.length,
    cols := [("nome", rawColJ rows 0), ("ano", a),
             ("posicao", rawColJ rows 2), ("competicao", rawColJ rows 3),
             ("gols", g), ("minutagem", m), ("categoria", rawColJ rows 6)] }

/-- `fetch_data` on a worksheet whose header row is literally the canonical
player header: every raw column is kept in place and the three numeric
columns are coerced cell-wise, provided no numeric cell holds a finite
non-integral number (those would make `astype('Int64')` raise — see the C2
counterexample). -/
theorem fetch_data_canonical_worksheet (rows : List (List Cell))
    (h1 : ∀ r ∈ rows, ¬ classify (getPad r 1) = .nonint)
    (h4 : ∀ r ∈ rows, ¬ classify (getPad r 4) = .nonint)
    (h5 : ∀ r ∈ rows, ¬ classify (getPad r 5) = .nonint) :
    fetch_data (some ⟨JOGADORES_COLS, rows⟩) JOGADORES_COLS =
      canonFrame rows ((rawColJ rows 1).map coerceCell)
        ((rawColJ rows 4).map coerceCell) ((rawColJ rows 5).map coerceCell) := by
  have hmem : ∀ (j : Nat), (∀ r ∈ rows, ¬ classify (getPad r j) = .nonint) →
      ∀ v ∈ rawColJ rows j, ¬ classify v = .nonint := by
    intro j hj v hv
    obtain ⟨r, hr, rfl⟩ := List.mem_map.mp hv
    exact hj r hr
  have hc1 := coerceCol_ok (hmem 1 h1)
  have hc4 := coerceCol_ok (hmem 4 h4)
  have hc5 := coerceCol_ok (hmem 5 h5)
  have hD1 : addMissing JOGADORES_COLS (renameCols normKey (dropEmptyCols
      (buildDF ⟨JOGADORES_COLS, rows⟩))) =
      canonFrame rows (rawColJ rows 1) (rawColJ rows 4) (rawColJ rows 5) := by
    have henum : (["nome", "ano", "posicao", "competicao", "gols", "minutagem",
        "categoria"] : List String).enum = [(0, "nome"), (1, "ano"),
        (2, "posicao"), (3, "competicao"), (4, "gols"), (5, "minutagem"),
        (6, "categoria")] := by decide
    have hnk : normKey "nome" = "nome" ∧ normKey "ano" = "ano" ∧
        normKey "posicao" = "posicao" ∧ normKey "competicao" = "competicao" ∧
        normKey "gols" = "gols" ∧ normKey "minutagem" = "minutagem" ∧
        normKey "categoria" = "categoria" := by decide
    simp only [buildDF, JOGADORES_COLS, henum, List.map_cons, List.map_nil,
      dropEmptyCols, List.any_cons, List.any_nil, String.reduceEq,
      decide_False, Bool.or_self, Bool.or_false, Bool.false_eq_true, if_false,
      renameCols, addMissing, addMissingStep, List.foldl_cons, List.foldl_nil,
      hnk.1, hnk.2.1, hnk.2.2.1, hnk.2.2.2.1, hnk.2.2.2.2.1, hnk.2.2.2.2.2.1,
      hnk.2.2.2.2.2.2, decide_True, Bool.false_or, Bool.or_true, Bool.true_or,
      if_true, canonFrame, rawColJ]
  have hstep2 : coerceOne (canonFrame rows (rawColJ rows 1) (rawColJ rows 4)
      (rawColJ rows 5)) "ano" =
      .ok (canonFrame rows ((rawColJ rows 1).map coerceCell) (rawColJ rows 4)
        (rawColJ rows 5)) := by
    calc coerceOne (canonFrame rows (rawColJ rows 1) (rawColJ rows 4)
            (rawColJ rows 5)) "ano"
        = (match coerceCol (rawColJ rows 1) with
           | .error e => .error e
           | .ok v => .ok (canonFrame rows v (rawColJ rows 4) (rawColJ rows 5))
           : Except String DF) := rfl
      _ = _ := by rw [hc1]
  have hstep3 : coerceOne (canonFrame rows ((rawColJ rows 1).map coerceCell)
      (rawColJ rows 4) (rawColJ rows 5)) "gols" =
      .ok (canonFrame rows ((rawColJ rows 1).map coerceCell)
        ((rawColJ rows 4).map coerceCell) (rawColJ rows 5)) := by
    calc coerceOne (canonFrame rows ((rawColJ rows 1).map coerceCell)
            (rawColJ rows 4) (rawColJ rows 5)) "gols"
        = (match coerceCol (rawColJ rows 4) with
           | .error e => .error e
           | .ok v => .ok (canonFrame rows ((rawColJ rows 1).map coerceCell) v
               (rawColJ rows 5))
           : Except String DF) := rfl
      _ = _ := by rw [hc4]
  have hstep4 : coerceOne (canonFrame rows ((rawColJ rows 1).map coerceCell)
      ((rawColJ rows 4).map coerceCell) (rawColJ rows 5)) "minutagem" =
      .ok (canonFrame rows ((rawColJ rows 1).map coerceCell)
        ((rawColJ rows 4).map coerceCell) ((rawColJ rows 5).map coerceCell)) := by
    calc coerceOne (canonFrame rows ((rawColJ rows 1).map coerceCell)
            ((rawColJ rows 4).map coerceCell) (rawColJ rows 5)) "minutagem"
        = (match coerceCol (rawColJ rows 5) with
           | .error e => .error e
           | .ok v => .ok (canonFrame rows ((rawColJ rows 1).map coerceCell)
               ((rawColJ rows 4).map coerceCell) v)
           : Except String DF) := rfl
      _ = _ := by rw [hc5]
  have hpipe : fetchPipeline ⟨JOGADORES_COLS, rows⟩ JOGADORES_COLS =
      .ok (canonFrame rows ((rawColJ rows 1).map coerceCell)
        ((rawColJ rows 4).map coerceCell) ((rawColJ rows 5).map coerceCell)) := by
    unfold fetchPipeline
    rw [show buildDFE ⟨JOGADORES_COLS, rows⟩ =
        .ok (buildDF ⟨JOGADORES_COLS, rows⟩) from by
      unfold buildDFE
      rw [if_pos (show (⟨JOGADORES_COLS, rows⟩ : RawTable).header.Nodup from
        (by decide : JOGADORES_COLS.Nodup))]]
    rw [exceptBind_ok]
    dsimp only
    rw [hD1, hstep2, exceptBind_ok, hstep3, exceptBind_ok, hstep4,
      exceptBind_ok]
    rfl
  unfold fetch_data fetch_logged
  dsimp only
  split
  · next hemp =>
    have : rows = [] := by simpa using hemp
    subst this
    rfl
  · rw [hpipe]

/-! ### Claim C2 -/

/-- C2 (counterexample): the value `"3.5"` in the `gols` column fails
integer parsing, yet it is not turned into the missing marker: the
`astype('Int64')` step raises, the exception is caught, and the whole fetch
returns the empty canonical frame — the row is discarded entirely. -/
theorem c2_nonintegral_value_discards_whole_fetch :
    fetch_data (some ⟨JOGADORES_COLS,
        [[.s "P", .s "2005", .s "ATA", .s "Copa", .s "3.5", .s "90",
          .s "Sub-20"]]⟩) JOGADORES_COLS = DF.emptyWith JOGADORES_COLS ∧
      (fetch_data (some ⟨JOGADORES_COLS,
          [[.s "P", .s "2005", .s "ATA", .s "Copa", .s "3.5", .s "90",
            .s "Sub-20"]]⟩) JOGADORES_COLS).colOf "gols" ≠ [Cell.na] := by
  constructor
  · decide
  · decide

/-- C2 (amended): over a canonical-header worksheet, provided no numeric
cell parses as a finite non-integral number, normalization keeps every row,
coerces the three numeric columns cell-wise — every value that fails
numeric parsing becomes the missing marker `NA` — and the numeric columns
of the output are integer-typed-or-missing. -/
theorem c2_unparseable_numeric_values_become_missing (rows : List (List Cell))
    (h1 : ∀ r ∈ rows, ¬ classify (getPad r 1) = .nonint)
    (h4 : ∀ r ∈ rows, ¬ classify (getPad r 4) = .nonint)
    (h5 : ∀ r ∈ rows, ¬ classify (getPad r 5) = .nonint) :
    (fetch_data (some ⟨JOGADORES_COLS, rows⟩) JOGADORES_COLS).nrows
        = rows.length ∧
      (fetch_data (some ⟨JOGADORES_COLS, rows⟩) JOGADORES_COLS).colOf "ano"
        = (rawColJ rows 1).map coerceCell ∧
      (fetch_data (some ⟨JOGADORES_COLS, rows⟩) JOGADORES_COLS).colOf "gols"
        = (rawColJ rows 4).map coerceCell ∧
      (fetch_data (some ⟨JOGADORES_COLS, rows⟩) JOGADORES_COLS).colOf "minutagem"
        = (rawColJ rows 5).map coerceCell ∧
      (∀ v : Cell, classify v = .nan → coerceCell v = .na) ∧
      ∀ c ∈ NUMERIC_COLS,
        ∀ v ∈ (fetch_data (some ⟨JOGADORES_COLS, rows⟩) JOGADORES_COLS).colOf c,
          (∃ n, v = Cell.i n) ∨ v = Cell.na := by
  rw [fetch_data_canonical_worksheet rows h1 h4 h5]
  refine ⟨rfl, rfl, rfl, rfl, fun v hv => coerceCell_of_nan hv, ?_⟩
  intro c hc v hv
  have hshape : ∀ j : Nat, v ∈ (rawColJ rows j).map coerceCell →
      (∃ n, v = Cell.i n) ∨ v = Cell.na := by
    intro j hj
    obtain ⟨w, _, rfl⟩ := List.mem_map.mp hj
    rcases coerceCell_shape w with ⟨n, hn⟩ | hn
    · exact .inl ⟨n, hn⟩
    · exact .inr hn
  rcases show c = "ano" ∨ c = "gols" ∨ c = "minutagem" by simpa [NUMERIC_COLS] using hc
    with rfl | rfl | rfl
  · exact hshape 1 hv
  · exact hshape 4 hv
  · exact hshape 5 hv

/-- C2 (witness): a concrete row with the unparseable `"abc"` in `ano` and a
blank in `gols`; both normalize to missing, the parseable minutes survive. -/
theorem c2_witness :
    (fetch_data (some ⟨JOGADORES_COLS,
        [[.s "P", .s "abc", .s "ATA", .s "Copa", .s "", .i 90, .s "Sub-20"]]⟩)
      JOGADORES_COLS).colOf "ano" = [Cell.na] := by
  have h := c2_unparseable_numeric_values_become_missing
    [[.s "P", .s "abc", .s "ATA", .s "Copa", .s "", .i 90, .s "Sub-20"]]
    (by decide) (by decide) (by decide)
  rw [h.2.1]
  decide

/-! ### Claim C6 -/

/-- C6: with every predicate at its "no filter" sentinel (empty name,
`"Todas"` everywhere), the filter chain of `render_main_page` returns the
input collection unchanged, in order and content. -/
theorem c6_all_sentinels_is_identity (rows : List PlayerRow) :
    aplicarFiltros ⟨"", "Todas", "Todas", "Todas"⟩ rows = .ok rows := by
  unfold aplicarFiltros
  split
  · rfl
  · rfl

/-! ### Claim C5 -/

/-- Prefix matching of a dot-free pattern is literal prefix equality. -/
theorem patMatchAt_dotfree {p : List Char} (hp : '.' ∉ p) (cs : List Char) :
    patMatchAt p cs = true ↔ ∃ t, cs = p ++ t := by
  induction p generalizing cs with
  | nil =>
    simp [patMatchAt]
  | cons a ps ih =>
    cases cs with
    | nil =>
      simp [patMatchAt]
    | cons c cs' =>
      have ha : ¬ a = '.' := fun h => hp (h ▸ List.mem_cons_self a ps)
      have ih' := ih (fun hm => hp (List.mem_cons_of_mem _ hm)) cs'
      simp only [patMatchAt, Bool.and_eq_true, Bool.or_eq_true,
        decide_eq_true_eq, ih']
      constructor
      · rintro ⟨hd, t, rfl⟩
        rcases hd with hd | hd
        · exact absurd hd ha
        · exact ⟨t, by rw [hd]; rfl⟩
      · rintro ⟨t, ht⟩
        rw [List.cons_append] at ht
        injection ht with h1 h2
        exact ⟨.inr h1.symm, t, h2⟩

/-- `re.search` with a dot-free pattern is exactly substring occurrence. -/
theorem regexSearch_dotfree {p : List Char} (hp : '.' ∉ p) (s : List Char) :
    regexSearch p s = true ↔ ∃ l t, s = l ++ p ++ t := by
  induction s with
  | nil =>
    rw [regexSearch, patMatchAt_dotfree hp]
    constructor
    · rintro ⟨t, ht⟩
      exact ⟨[], t, ht⟩
    · rintro ⟨l, t, h⟩
      have h0 := List.append_eq_nil.mp (List.append_eq_nil.mp h.symm).1
      exact ⟨t, by rw [h, h0.1, h0.2]; rfl⟩
  | cons c cs ih =>
    rw [regexSearch]
    simp only [Bool.or_eq_true, patMatchAt_dotfree hp, ih]
    constructor
    · rintro (⟨t, ht⟩ | ⟨l, t, ht⟩)
      · exact ⟨[], t, by rw [ht]; rfl⟩
      · exact ⟨c :: l, t, by rw [ht]; rfl⟩
    · rintro ⟨l, t, ht⟩
      cases l with
      | nil => exact .inl ⟨t, by rw [ht]; rfl⟩
      | cons a l' =>
        rw [List.cons_append, List.cons_append] at ht
        injection ht with _ h2
        exact .inr ⟨l', t, h2⟩

/-- The conjunction of the four predicates, as one row-level test: an
inactive predicate passes every row; the name predicate is the
case-insensitive `re` search mask; the other three are the equality masks. -/
def passAll (f : Filtros) (r : PlayerRow) : Bool :=
  (f.nome = "" || strContainsMask f.nome r.nome) &&
    ((f.categoria = "Todas" || (eqMask r.categoria f.categoria).getD false) &&
      ((f.posicao = "Todas" || (eqMask r.posicao f.posicao).getD false) &&
        (f.competicao = "Todas" || (eqMask r.competicao f.competicao).getD false)))

theorem filter_then_filter {α : Type} (p q : α → Bool) (l : List α) :
    (l.filter p).filter q = l.filter fun a => p a && q a := by
  induction l with
  | nil => rfl
  | cons a l ih =>
    by_cases hp : p a
    · rw [List.filter_cons_of_pos hp]
      by_cases hq : q a
      · rw [List.filter_cons_of_pos hq, List.filter_cons_of_pos (by simp [hp, hq]), ih]
      · rw [List.filter_cons_of_neg hq, List.filter_cons_of_neg (by simp [hp, hq]), ih]
    · rw [List.filter_cons_of_neg hp, List.filter_cons_of_neg (by simp [hp]), ih]

theorem aplicaEq_ok (get : PlayerRow → Cell) (s : String)
    (rows : List PlayerRow) (h : ∀ r ∈ rows, ∃ v, get r = Cell.s v) :
    aplicaEq get s rows =
      .ok (rows.filter fun r => (eqMask (get r) s).getD false) := by
  unfold aplicaEq
  rw [if_neg]
  simp only [List.any_eq_true, not_exists, not_and]
  intro r hr
  obtain ⟨v, hv⟩ := h r hr
  simp [eqMask, hv]

theorem eqFilterStep (get : PlayerRow → Cell) (s : String)
    (l : List PlayerRow) (h : ¬ s = "Todas" → ∀ r ∈ l, ∃ v, get r = Cell.s v) :
    (if s = "Todas" then Except.ok l else aplicaEq get s l) =
      .ok (l.filter fun r =>
        decide (s = "Todas") || (eqMask (get r) s).getD false) := by
  by_cases hs : s = "Todas"
  · rw [if_pos hs]
    have he : (fun r : PlayerRow =>
        decide (s = "Todas") || (eqMask (get r) s).getD false) = fun _ => true := by
      funext r
      simp [hs]
    rw [he, List.filter_true]
  · rw [if_neg hs, aplicaEq_ok get s l (h hs)]
    congr 1
    apply List.filter_congr
    intro r _
    simp [hs]

/-- The filter chain equals one pass with the conjunction of the four
predicates, provided the columns under an active equality predicate hold
strings (a missing value under an active equality filter makes pandas
raise — see `aplicaEq`). -/
theorem aplicarFiltros_conj (f : Filtros) (rows : List PlayerRow)
    (hcat : ¬ f.categoria = "Todas" → ∀ r ∈ rows, ∃ v, r.categoria = Cell.s v)
    (hpos : ¬ f.posicao = "Todas" → ∀ r ∈ rows, ∃ v, r.posicao = Cell.s v)
    (hcomp : ¬ f.competicao = "Todas" → ∀ r ∈ rows, ∃ v, r.competicao = Cell.s v) :
    aplicarFiltros f rows = .ok (rows.filter (passAll f)) := by
  unfold aplicarFiltros
  split
  · next hemp =>
    have : rows = [] := by simpa using hemp
    subst this
    rfl
  · dsimp only
    have h1 : (if f.nome = "" then rows
        else rows.filter fun r => strContainsMask f.nome r.nome) =
        rows.filter fun r =>
          decide (f.nome = "") || strContainsMask f.nome r.nome := by
      by_cases hn : f.nome = ""
      · rw [if_pos hn]
        have he : (fun r : PlayerRow =>
            decide (f.nome = "") || strContainsMask f.nome r.nome) =
            fun _ => true := by
          funext r
          simp [hn]
        rw [he, List.filter_true]
      · rw [if_neg hn]
        apply List.filter_congr
        intro r _
        simp [hn]
    rw [h1]
    rw [eqFilterStep (fun r => r.categoria) f.categoria _
      (fun hs r hr => hcat hs r (List.mem_of_mem_filter hr))]
    rw [exceptBindE_ok]
    rw [eqFilterStep (fun r => r.posicao) f.posicao _
      (fun hs r hr => hpos hs r
        (List.mem_of_mem_filter (List.mem_of_mem_filter hr)))]
    rw [exceptBindE_ok]
    rw [eqFilterStep (fun r => r.competicao) f.competicao _
      (fun hs r hr => hcomp hs r (List.mem_of_mem_filter
        (List.mem_of_mem_filter (List.mem_of_mem_filter hr))))]
    rw [filter_then_filter, filter_then_filter, filter_then_filter]
    rfl

/-- The name mask is a case-insensitive substring test for every pattern
free of the `.` wildcard (the only regex metacharacter in the modelled
fragment), and only string-valued names can match. -/
theorem strContainsMask_iff_substring {pat : String}
    (hp : '.' ∉ (lowerStr pat).data) (c : Cell) :
    strContainsMask pat c = true ↔
      ∃ v, c = Cell.s v ∧
        ∃ l t, (lowerStr v).data = l ++ (lowerStr pat).data ++ t := by
  cases c with
  | s v =>
    unfold strContainsMask
    rw [regexSearch_dotfree hp]
    constructor
    · rintro ⟨l, t, h⟩
      exact ⟨v, rfl, l, t, h⟩
    · rintro ⟨v', hv, l, t, h⟩
      injection hv with hv'
      subst hv'
      exact ⟨l, t, h⟩
  | i n =>
    simp only [strContainsMask]
    constructor
    · intro h
      cases h
    · rintro ⟨v, hv, _⟩
      cases hv
  | f q =>
    simp only [strContainsMask]
    constructor
    · intro h
      cases h
    · rintro ⟨v, hv, _⟩
      cases hv
  | na =>
    simp only [strContainsMask]
    constructor
    · intro h
      cases h
    · rintro ⟨v, hv, _⟩
      cases hv

/-- C5 (counterexample): the name filter is fed to `Series.str.contains`,
whose pattern is a regular expression: the filter `"."` matches the name
`"ab"`, although `"."` is not a substring of `"ab"` — so the name predicate
is not a substring match. -/
theorem c5_name_filter_is_regex_not_substring :
    strContainsMask "." (Cell.s "ab") = true ∧
      ¬ ∃ l t, (lowerStr "ab").data = l ++ (lowerStr ".").data ++ t := by
  refine ⟨by decide, ?_⟩
  rintro ⟨l, t, h⟩
  have hm : '.' ∈ l ++ (lowerStr ".").data ++ t := by
    rw [show (lowerStr ".").data = ['.'] from by decide]
    simp
  rw [← h] at hm
  exact absurd hm (by decide)

/-- C5 (amended): the filter engine returns exactly the subset satisfying
the conjunction of all active predicates, in input order, provided every
column under an active equality predicate holds a string (equality on a
missing value would make pandas raise); `categoria`, `posicao` and
`competicao` are exact string equality; the name predicate is a
case-insensitive regular-expression search, which for patterns without
regex metacharacters — such as `"silva"` — is case-insensitive substring
matching: it matches `"Da Silva"` and `"SILVA Jr"` but not `"Oliveira"`. -/
theorem c5_filter_engine_conjunction :
    (∀ (f : Filtros) (rows : List PlayerRow),
      (¬ f.categoria = "Todas" → ∀ r ∈ rows, ∃ v, r.categoria = Cell.s v) →
      (¬ f.posicao = "Todas" → ∀ r ∈ rows, ∃ v, r.posicao = Cell.s v) →
      (¬ f.competicao = "Todas" → ∀ r ∈ rows, ∃ v, r.competicao = Cell.s v) →
      aplicarFiltros f rows = .ok (rows.filter (passAll f))) ∧
    (∀ (pat : String), '.' ∉ (lowerStr pat).data → ∀ (c : Cell),
      strContainsMask pat c = true ↔
        ∃ v, c = Cell.s v ∧
          ∃ l t, (lowerStr v).data = l ++ (lowerStr pat).data ++ t) ∧
    aplicarFiltros ⟨"silva", "Todas", "Todas", "Todas"⟩
        [⟨.s "Da Silva", .i 2005, .s "ATA", .s "Copa", .i 1, .i 90, .s "Sub-20"⟩,
         ⟨.s "SILVA Jr", .i 2006, .s "ZAG", .s "Copa", .i 0, .i 45, .s "Sub-17"⟩,
         ⟨.s "Oliveira", .i 2007, .s "MEI", .s "Copa", .i 2, .i 30, .s "Sub-20"⟩]
      = .ok
        [⟨.s "Da Silva", .i 2005, .s "ATA", .s "Copa", .i 1, .i 90, .s "Sub-20"⟩,
         ⟨.s "SILVA Jr", .i 2006, .s "ZAG", .s "Copa", .i 0, .i 45, .s "Sub-17"⟩] := by
  refine ⟨fun f rows h1 h2 h3 => aplicarFiltros_conj f rows h1 h2 h3,
    fun pat hp c => strContainsMask_iff_substring hp c, by rfl⟩

/-- C5 (witness): the conjunction part applied to a concrete filter and
collection — an active `categoria` equality predicate over string-valued
categories, combined with an inactive name filter. -/
theorem c5_witness :
    aplicarFiltros ⟨"", "Sub-20", "Todas", "Todas"⟩
        [⟨.s "Da Silva", .i 2005, .s "ATA", .s "Copa", .i 1, .i 90, .s "Sub-20"⟩,
         ⟨.s "SILVA Jr", .i 2006, .s "ZAG", .s "Copa", .i 0, .i 45, .s "Sub-17"⟩]
      = .ok
        [⟨.s "Da Silva", .i 2005, .s "ATA", .s "Copa", .i 1, .i 90, .s "Sub-20"⟩] := by
  have h := c5_filter_engine_conjunction.1 ⟨"", "Sub-20", "Todas", "Todas"⟩
    [⟨.s "Da Silva", .i 2005, .s "ATA", .s "Copa", .i 1, .i 90, .s "Sub-20"⟩,
     ⟨.s "SILVA Jr", .i 2006, .s "ZAG", .s "Copa", .i 0, .i 45, .s "Sub-17"⟩]
    (by intro _ r hr
        rcases List.mem_cons.mp hr with rfl | hr
        · exact ⟨"Sub-20", rfl⟩
        · rcases List.mem_cons.mp hr with rfl | hr
          · exact ⟨"Sub-17", rfl⟩
          · cases hr)
    (by intro hx; exact absurd rfl hx)
    (by intro hx; exact absurd rfl hx)
  rw [h]
  rfl

/-! ### Claim C3 -/

/-- C3: a bulk-import batch whose header lacks at least one canonical
column is rejected in full: the worksheet and the in-memory frame are
unchanged, exactly one error message is emitted, and that message names
every canonical column — in particular every missing one. -/
theorem c3_bulk_import_missing_column_rejected (s : AdminJogState)
    (csv : RawTable) (hnd : csv.header.Nodup)
    (hmiss : ∃ c ∈ JOGADORES_COLS, c ∉ csv.header.map normKeyCsv) :
    importJogadoresCSV s csv =
        (s, ["Erro no CSV! Colunas esperadas: " ++
          ", ".intercalate JOGADORES_COLS]) ∧
      ∀ c ∈ JOGADORES_COLS,
        ∃ l t, ("Erro no CSV! Colunas esperadas: " ++
          ", ".intercalate JOGADORES_COLS).data = l ++ c.data ++ t := by
  constructor
  · have hfalse : (JOGADORES_COLS.all fun c =>
        (renameCols normKeyCsv (buildDF csv)).cols.any fun p => p.1 = c) = false := by
      rw [Bool.eq_false_iff]
      intro hall
      obtain ⟨c, hcJ, hcn⟩ := hmiss
      have hany := List.all_eq_true.mp hall c hcJ
      have hm := (any_label_iff _ c).mp hany
      rw [labels_rename, labels_buildDF] at hm
      exact hcn hm
    unfold importJogadoresCSV
    rw [show buildDFE csv = .ok (buildDF csv) from by
      unfold buildDFE
      rw [if_pos hnd]]
    dsimp only
    rw [hfalse]
    rfl
  · intro c hc
    rcases show c = "nome" ∨ c = "ano" ∨ c = "posicao" ∨ c = "competicao" ∨
        c = "gols" ∨ c = "minutagem" ∨ c = "categoria" by
      simpa [JOGADORES_COLS] using hc
      with rfl | rfl | rfl | rfl | rfl | rfl | rfl
    · exact (regexSearch_dotfree (by decide) _).mp (by decide)
    · exact (regexSearch_dotfree (by decide) _).mp (by decide)
    · exact (regexSearch_dotfree (by decide) _).mp (by decide)
    · exact (regexSearch_dotfree (by decide) _).mp (by decide)
    · exact (regexSearch_dotfree (by decide) _).mp (by decide)
    · exact (regexSearch_dotfree (by decide) _).mp (by decide)
    · exact (regexSearch_dotfree (by decide) _).mp (by decide)

/-- C3 (witness): a concrete batch whose header lacks `gols` is rejected
with the canonical-column message, leaving the session untouched. -/
theorem c3_witness :
    importJogadoresCSV
        ⟨⟨JOGADORES_COLS, []⟩, DF.emptyWith JOGADORES_COLS⟩
        ⟨["nome", "ano", "posicao", "competicao", "minutagem", "categoria"],
         [[.s "A", .i 2005, .s "ATA", .s "X", .i 90, .s "S20"]]⟩ =
      (⟨⟨JOGADORES_COLS, []⟩, DF.emptyWith JOGADORES_COLS⟩,
       ["Erro no CSV! Colunas esperadas: " ++
         ", ".intercalate JOGADORES_COLS]) :=
  (c3_bulk_import_missing_column_rejected _ _ (by decide)
    ⟨"gols", by decide, by decide⟩).1

/-! ### Claim C10 -/

theorem getD_replicate {α : Type} (n i : Nat) (a : α) :
    (List.replicate n a).getD i a = a := by
  unfold List.getD
  rw [List.get?_eq_getElem?, List.getElem?_replicate]
  split <;> rfl

/-- Every successful mass append writes, for each input row, one serialized
value per target column, in target order: present columns contribute their
(NA-to-`''`) values, absent target columns are filled with `''`, and
columns outside the target list are dropped. -/
theorem massAppend_ok (target : List String) (ws : RawTable) (df : DF)
    (hnd : df.labels.Nodup) :
    massAppend target ws df = .ok { ws with rows := ws.rows ++
      ((List.range df.nrows).map fun i => target.map fun c =>
        serialCell ((df.colOf c).getD i (Cell.s ""))) } := by
  unfold massAppend reindexCols
  rw [if_pos hnd, exceptBind_ok]
  have hv : dfValuesTolist (fillnaEmpty
      { nrows := df.nrows,
        cols := target.map fun c =>
          match df.cols.find? (fun p => p.1 = c) with
          | some p => (c, p.2)
          | none => (c, List.replicate df.nrows (Cell.s "")) }) =
      (List.range df.nrows).map fun i => target.map fun c =>
        serialCell ((df.colOf c).getD i (Cell.s "")) := by
    unfold fillnaEmpty dfValuesTolist
    dsimp only
    apply List.map_congr_left
    intro i _
    rw [List.map_map, List.map_map]
    apply List.map_congr_left
    intro c _
    dsimp only [Function.comp]
    cases hf : df.cols.find? (fun p => p.1 = c) with
    | some p =>
      have hcol : df.colOf c = p.2 := by
        unfold DF.colOf
        rw [hf]
      rw [hcol]
      calc (p.2.map serialCell).getD i (Cell.s "")
          = (p.2.map serialCell).getD i (serialCell (Cell.s "")) := rfl
        _ = serialCell (p.2.getD i (Cell.s "")) := List.getD_map p.2 _ serialCell
    | none =>
      have hcol : df.colOf c = [] := by
        unfold DF.colOf
        rw [hf]
      rw [hcol, List.map_replicate]
      calc (List.replicate df.nrows (serialCell (Cell.s ""))).getD i (Cell.s "")
          = (List.replicate df.nrows (Cell.s "")).getD i (Cell.s "") := rfl
        _ = Cell.s "" := getD_replicate df.nrows i (Cell.s "")
        _ = serialCell (([] : List Cell).getD i (Cell.s "")) := rfl
  rw [hv]
  rfl

/-- C10: both mass-add writers append, for every batch with no duplicated
column label, exactly one serialized value per canonical column per input
row, in canonical column order: extra columns are dropped, absent canonical
columns are filled with the empty string, missing (`NA`) values are
serialized as the empty string (so the missing marker is not preserved in
the backing store), and a batch with extra columns is accepted, not
rejected. -/
theorem c10_mass_writers_serialize_canonically (ws : RawTable) (df : DF)
    (hnd : df.labels.Nodup) :
    adicionar_jogadores_massa ws df = .ok { ws with rows := ws.rows ++
        ((List.range df.nrows).map fun i => JOGADORES_COLS.map fun c =>
          serialCell ((df.colOf c).getD i (Cell.s ""))) } ∧
      adicionar_titulos_massa ws df = .ok { ws with rows := ws.rows ++
        ((List.range df.nrows).map fun i => TITULOS_COLS.map fun c =>
          serialCell ((df.colOf c).getD i (Cell.s ""))) } ∧
      (∀ i : Nat,
        (JOGADORES_COLS.map fun c =>
          serialCell ((df.colOf c).getD i (Cell.s ""))).length
            = JOGADORES_COLS.length) ∧
      serialCell Cell.na = Cell.s "" :=
  ⟨massAppend_ok JOGADORES_COLS ws df hnd,
   massAppend_ok TITULOS_COLS ws df hnd,
   fun i => List.length_map _ _,
   rfl⟩

/-- C10 (witness): a one-row batch with an extra column, an `NA` value in
`gols`, and most canonical columns absent: the appended row has exactly the
seven canonical positions, `''` for the absent ones and for the `NA`. -/
theorem c10_witness :
    adicionar_jogadores_massa ⟨JOGADORES_COLS, []⟩
        ⟨1, [("extra", [.s "E"]), ("nome", [.s "A"]), ("gols", [.na])]⟩ =
      .ok ⟨JOGADORES_COLS,
        [[.s "A", .s "", .s "", .s "", .s "", .s "", .s ""]]⟩ := by
  have h := (c10_mass_writers_serialize_canonically ⟨JOGADORES_COLS, []⟩
    ⟨1, [("extra", [.s "E"]), ("nome", [.s "A"]), ("gols", [.na])]⟩
    (by decide)).1
  rw [h]
  rfl

/-! ### Claim C9 -/

/-- C9: deleting the record at in-memory index `i` issues the backing-store
delete at 1-based position `i + 2`, which — the header row occupying
position 1 — removes exactly the `i`-th data row: the header survives, the
data rows lose precisely index `i`, and the store shrinks by one row. -/
theorem c9_delete_at_index_plus_two (header : List Cell)
    (dataRows : List (List Cell)) (i : Nat) (h : i < dataRows.length) :
    delete_player_record header dataRows i =
        header :: dataRows.eraseIdx i ∧
      delete_player_record header dataRows i =
        delete_row_by_position (header :: dataRows) (i + 2) ∧
      (delete_player_record header dataRows i).length + 1 =
        (header :: dataRows).length := by
  refine ⟨rfl, rfl, ?_⟩
  have h1 : delete_player_record header dataRows i =
      header :: dataRows.eraseIdx i := rfl
  rw [h1]
  simp only [List.length_cons, List.length_eraseIdx_of_lt h]
  omega

/-- C9 (witness): deleting in-memory index 1 from a three-row store keeps
the header and removes the second data row. -/
theorem c9_witness :
    delete_player_record [Cell.s "nome"] [[Cell.s "a"], [Cell.s "b"], [Cell.s "c"]] 1 =
        [Cell.s "nome"] :: [[Cell.s "a"], [Cell.s "b"], [Cell.s "c"]].eraseIdx 1 ∧
      delete_player_record [Cell.s "nome"] [[Cell.s "a"], [Cell.s "b"], [Cell.s "c"]] 1 =
        delete_row_by_position
          ([Cell.s "nome"] :: [[Cell.s "a"], [Cell.s "b"], [Cell.s "c"]]) 3 ∧
      (delete_player_record [Cell.s "nome"]
          [[Cell.s "a"], [Cell.s "b"], [Cell.s "c"]] 1).length + 1 =
        ([Cell.s "nome"] :: [[Cell.s "a"], [Cell.s "b"], [Cell.s "c"]]).length :=
  c9_delete_at_index_plus_two _ _ 1 (by decide)

/-! ### Claim C8 -/

/-- C8 (counterexample): with a connected spreadsheet that lacks every
expected tab — a structural failure in the claim's sense — all reads yield
empty canonical-schema frames, but no error at all is reported: the log is
empty, not a single batch-level report, because `get_worksheet` returns
`None` silently (source comment, src/app.py line 57). -/
theorem c8_missing_tab_is_silent :
    (load_all_data (some ⟨[]⟩)).2 = [] ∧
      get_worksheet ⟨[]⟩ "Jogadores" = none ∧
      (load_all_data (some ⟨[]⟩)).1 =
        (DF.emptyWith JOGADORES_COLS, DF.emptyWith TITULOS_COLS,
         DF.emptyWith TRANSFERMARKT_COLS) := by
  refine ⟨rfl, rfl, rfl⟩

/-- C8 (amended): a connection failure (`conectar_sheets` returning `None`)
is reported exactly once and every dependent read yields the empty
canonical-schema frame; a read whose named tab is absent also yields the
empty canonical-schema frame, without raising — but silently, with no
error report from the data layer. -/
theorem c8_structural_failures_yield_empty_frames :
    load_all_data none =
        ((DF.emptyWith JOGADORES_COLS, DF.emptyWith TITULOS_COLS,
          DF.emptyWith TRANSFERMARKT_COLS),
         ["Erro de conexão com a planilha"]) ∧
      (load_all_data none).2.length = 1 ∧
      (∀ s : Spreadsheet, get_worksheet s "Jogadores" = none →
        (load_all_data (some s)).1.1 = DF.emptyWith JOGADORES_COLS) ∧
      ∀ req : List String, fetch_logged none req = (DF.emptyWith req, []) := by
  refine ⟨rfl, rfl, ?_, fun req => rfl⟩
  intro s hs
  unfold load_all_data
  dsimp only
  rw [hs]
  rfl

/-- C8 (witness): the missing-tab part applied to a concrete spreadsheet
that has only a `Titulos` tab. -/
theorem c8_witness :
    (load_all_data (some ⟨[("Titulos", ⟨TITULOS_COLS, []⟩)]⟩)).1.1 =
      DF.emptyWith JOGADORES_COLS :=
  c8_structural_failures_yield_empty_frames.2.2.1 _ (by decide)

/-! ### Claim C4 -/

/-- The normalization of an uploaded CSV batch (src/app.py line 228):
`read_csv` columns with lower/strip applied to the header. -/
def csvNormalized (csv : RawTable) : DF :=
  renameCols normKeyCsv (buildDF csv)

/-- Statement vocabulary: the rows a validated batch appends to the
worksheet — one serialized value per canonical column, in canonical order,
numeric columns coerced to integer-or-missing first, `NA` serialized as
`''`. -/
def appendedRows (csv : RawTable) : List (List Cell) :=
  (List.range csv.rows.length).map fun i => JOGADORES_COLS.map fun c =>
    serialCell ((if c ∈ NUMERIC_COLS then
        ((csvNormalized csv).colOf c).map coerceCell
      else (csvNormalized csv).colOf c).getD i (Cell.s ""))

theorem classify_serial_coerced (l : List Cell) (i : Nat) :
    ¬ classify (serialCell ((l.map coerceCell).getD i (Cell.s ""))) =
      NumParse.nonint := by
  rcases Nat.lt_or_ge i l.length with hlt | hge
  · have hi : i < (l.map coerceCell).length := by
      rw [List.length_map]
      exact hlt
    rw [List.getD_eq_getElem _ _ hi]
    rw [List.getElem_map]
    rcases coerceCell_shape l[i] with ⟨n, hn⟩ | hn
    · rw [hn]
      intro hx
      cases hx
    · rw [hn]
      intro hx
      cases hx
  · have hge' : (l.map coerceCell).length ≤ i := by
      rw [List.length_map]
      exact hge
    rw [List.getD_eq_default _ _ hge']
    intro hx
    cases hx

/-- C4 (counterexample): a batch whose header contains every canonical
column — "valid" in the frozen claim's sense — but whose `gols` value is
`"3.5"` appends zero rows, not one: the `Int64` coercion (src/app.py line
230) raises, the outer `except` (line 234) catches it, and both the
worksheet and the in-memory frame are left unchanged. -/
theorem c4_header_valid_batch_can_append_zero_rows :
    (∀ c ∈ JOGADORES_COLS, c ∈
      (⟨JOGADORES_COLS,
        [[.s "A", .i 2005, .s "ATA", .s "X", .s "3.5", .i 90, .s "S20"]]⟩ :
          RawTable).header.map normKeyCsv) ∧
      importJogadoresCSV ⟨⟨JOGADORES_COLS, []⟩, DF.emptyWith JOGADORES_COLS⟩
        ⟨JOGADORES_COLS,
         [[.s "A", .i 2005, .s "ATA", .s "X", .s "3.5", .i 90, .s "S20"]]⟩ =
        (⟨⟨JOGADORES_COLS, []⟩, DF.emptyWith JOGADORES_COLS⟩,
         ["Ocorreu um erro ao processar o arquivo: cannot safely cast non-equivalent float64 to int64"]) ∧
      (importJogadoresCSV ⟨⟨JOGADORES_COLS, []⟩, DF.emptyWith JOGADORES_COLS⟩
        ⟨JOGADORES_COLS,
         [[.s "A", .i 2005, .s "ATA", .s "X", .s "3.5", .i 90, .s "S20"]]⟩).1.ws.rows.length
        = 0 := by
  refine ⟨by decide, by decide, by decide⟩

/-- C4 (amended): a valid bulk-import batch of `n` rows (normalized header
containing every canonical column, no two header keys normalizing alike,
numeric values integral-or-unparseable) over a canonical-header worksheet:
the import succeeds with the `n`-rows success message, the backing store grows
by exactly `n` rows — the appended rows carrying one serialized value per
canonical column in canonical order — and the reloaded in-memory collection
grows by exactly `n` rows, the store update being an order-preserving
concatenation. -/
theorem c4_bulk_import_appends_exactly_n (oldRows : List (List Cell))
    (csv : RawTable)
    (hN1 : ∀ r ∈ oldRows, ¬ classify (getPad r 1) = .nonint)
    (hN4 : ∀ r ∈ oldRows, ¬ classify (getPad r 4) = .nonint)
    (hN5 : ∀ r ∈ oldRows, ¬ classify (getPad r 5) = .nonint)
    (hnd : (csv.header.map normKeyCsv).Nodup)
    (hsub : ∀ c ∈ JOGADORES_COLS, c ∈ csv.header.map normKeyCsv)
    (hcsvnum : ∀ c ∈ NUMERIC_COLS, ∀ v ∈ (csvNormalized csv).colOf c,
      ¬ classify v = .nonint) :
    importJogadoresCSV ⟨⟨JOGADORES_COLS, oldRows⟩,
        fetch_data (some ⟨JOGADORES_COLS, oldRows⟩) JOGADORES_COLS⟩ csv =
      (⟨⟨JOGADORES_COLS, oldRows ++ appendedRows csv⟩,
        fetch_data (some ⟨JOGADORES_COLS, oldRows ++ appendedRows csv⟩)
          JOGADORES_COLS⟩,
       [toString csv.rows.length ++ " jogadores adicionados!"]) ∧
    (oldRows ++ appendedRows csv).length
        = oldRows.length + csv.rows.length ∧
    (fetch_data (some ⟨JOGADORES_COLS, oldRows ++ appendedRows csv⟩)
        JOGADORES_COLS).nrows =
      (fetch_data (some ⟨JOGADORES_COLS, oldRows⟩) JOGADORES_COLS).nrows +
        csv.rows.length ∧
    (∀ r ∈ appendedRows csv, r.length = JOGADORES_COLS.length) ∧
    (∀ j : Nat, rawColJ (oldRows ++ appendedRows csv) j =
      rawColJ oldRows j ++ rawColJ (appendedRows csv) j) := by
  have hndraw : csv.header.Nodup := List.Nodup.of_map _ hnd
  have hlab1 : (csvNormalized csv).labels = csv.header.map normKeyCsv := by
    unfold csvNormalized
    rw [labels_rename, labels_buildDF]
  have hnd1 : (csvNormalized csv).labels.Nodup := by
    rw [hlab1]
    exact hnd
  have hn1 : (csvNormalized csv).nrows = csv.rows.length := rfl
  -- the three numeric coercions on the batch succeed
  obtain ⟨df2, h2eq, h2n, h2lab, h2col⟩ :=
    @coerceOne_ok_of (csvNormalized csv) "ano"
      (countP_label_le_one hnd1 _) (hcsvnum "ano" (by decide))
  have hnd2 : df2.labels.Nodup := h2lab ▸ hnd1
  obtain ⟨df3, h3eq, h3n, h3lab, h3col⟩ :=
    @coerceOne_ok_of df2 "gols"
      (countP_label_le_one hnd2 _)
      (by rw [h2col "gols", if_neg (by decide)]
          exact hcsvnum "gols" (by decide))
  have hnd3 : df3.labels.Nodup := h3lab ▸ hnd2
  obtain ⟨df4, h4eq, h4n, h4lab, h4col⟩ :=
    @coerceOne_ok_of df3 "minutagem"
      (countP_label_le_one hnd3 _)
      (by rw [h3col "minutagem", if_neg (by decide), h2col "minutagem",
            if_neg (by decide)]
          exact hcsvnum "minutagem" (by decide))
  have hnd4 : df4.labels.Nodup := h4lab ▸ hnd3
  have hn4 : df4.nrows = csv.rows.length := by
    rw [h4n, h3n, h2n, hn1]
  -- the coerced batch, column by column
  have hcol4 : ∀ c, df4.colOf c =
      if c ∈ NUMERIC_COLS then ((csvNormalized csv).colOf c).map coerceCell
      else (csvNormalized csv).colOf c := by
    intro c
    by_cases e1 : c = "ano"
    · subst e1
      rw [h4col "ano", if_neg (by decide), h3col "ano", if_neg (by decide),
        h2col "ano", if_pos rfl, if_pos (by decide)]
    · by_cases e2 : c = "gols"
      · subst e2
        rw [h4col "gols", if_neg (by decide), h3col "gols", if_pos rfl,
          h2col "gols", if_neg (by decide), if_pos (by decide)]
      · by_cases e3 : c = "minutagem"
        · subst e3
          rw [h4col "minutagem", if_pos rfl, h3col "minutagem",
            if_neg (by decide), h2col "minutagem", if_neg (by decide),
            if_pos (by decide)]
        · rw [h4col c, if_neg e3, h3col c, if_neg e2, h2col c, if_neg e1,
            if_neg (by simp [NUMERIC_COLS, e1, e2, e3])]
  -- the rows appended by the writer are exactly `appendedRows csv`
  have hrows : ((List.range df4.nrows).map fun i => JOGADORES_COLS.map fun c =>
      serialCell ((df4.colOf c).getD i (Cell.s ""))) = appendedRows csv := by
    unfold appendedRows
    rw [hn4]
    apply List.map_congr_left
    intro i _
    apply List.map_congr_left
    intro c _
    rw [hcol4 c]
  have hmass := massAppend_ok JOGADORES_COLS ⟨JOGADORES_COLS, oldRows⟩ df4 hnd4
  rw [hrows] at hmass
  -- validation succeeds
  have hall : (JOGADORES_COLS.all fun c =>
      (renameCols normKeyCsv (buildDF csv)).cols.any fun p => p.1 = c) = true := by
    rw [List.all_eq_true]
    intro c hc
    apply (any_label_iff _ c).mpr
    show c ∈ (csvNormalized csv).labels
    rw [hlab1]
    exact hsub c hc
  -- numeric-cell sanity of the extended worksheet
  have hnew1 : ∀ r ∈ appendedRows csv, ¬ classify (getPad r 1) = .nonint := by
    intro r hr
    obtain ⟨i, _, rfl⟩ := List.mem_map.mp hr
    show ¬ classify (serialCell ((if "ano" ∈ NUMERIC_COLS then
        ((csvNormalized csv).colOf "ano").map coerceCell
      else (csvNormalized csv).colOf "ano").getD i (Cell.s ""))) = .nonint
    rw [if_pos (by decide)]
    exact classify_serial_coerced _ i
  have hnew4 : ∀ r ∈ appendedRows csv, ¬ classify (getPad r 4) = .nonint := by
    intro r hr
    obtain ⟨i, _, rfl⟩ := List.mem_map.mp hr
    show ¬ classify (serialCell ((if "gols" ∈ NUMERIC_COLS then
        ((csvNormalized csv).colOf "gols").map coerceCell
      else (csvNormalized csv).colOf "gols").getD i (Cell.s ""))) = .nonint
    rw [if_pos (by decide)]
    exact classify_serial_coerced _ i
  have hnew5 : ∀ r ∈ appendedRows csv, ¬ classify (getPad r 5) = .nonint := by
    intro r hr
    obtain ⟨i, _, rfl⟩ := List.mem_map.mp hr
    show ¬ classify (serialCell ((if "minutagem" ∈ NUMERIC_COLS then
        ((csvNormalized csv).colOf "minutagem").map coerceCell
      else (csvNormalized csv).colOf "minutagem").getD i (Cell.s ""))) = .nonint
    rw [if_pos (by decide)]
    exact classify_serial_coerced _ i
  refine ⟨?_, ?_, ?_, ?_, ?_⟩
  · unfold importJogadoresCSV
    rw [show buildDFE csv = .ok (buildDF csv) from by
      unfold buildDFE
      rw [if_pos hndraw]]
    dsimp only
    rw [hall]
    rw [if_pos rfl]
    rw [show (do
        let a ← coerceOne (renameCols normKeyCsv (buildDF csv)) "ano"
        let b ← coerceOne a "gols"
        coerceOne b "minutagem" : Except String DF) =
      (Except.ok df4 : Except String DF) from by
        show (do
          let a ← coerceOne (csvNormalized csv) "ano"
          let b ← coerceOne a "gols"
          coerceOne b "minutagem" : Except String DF) = _
        rw [h2eq, exceptBind_ok, h3eq, exceptBind_ok, h4eq]]
    dsimp only
    rw [show adicionar_jogadores_massa ⟨JOGADORES_COLS, oldRows⟩ df4 =
        .ok ⟨JOGADORES_COLS, oldRows ++ appendedRows csv⟩ from hmass]
    dsimp only
    rw [hn4]
  · rw [List.length_append]
    unfold appendedRows
    rw [List.length_map, List.length_range]
  · rw [fetch_data_canonical_worksheet oldRows hN1 hN4 hN5,
      fetch_data_canonical_worksheet (oldRows ++ appendedRows csv)
        (by intro r hr
            rcases List.mem_append.mp hr with hr | hr
            · exact hN1 r hr
            · exact hnew1 r hr)
        (by intro r hr
            rcases List.mem_append.mp hr with hr | hr
            · exact hN4 r hr
            · exact hnew4 r hr)
        (by intro r hr
            rcases List.mem_append.mp hr with hr | hr
            · exact hN5 r hr
            · exact hnew5 r hr)]
    show (oldRows ++ appendedRows csv).length = oldRows.length + csv.rows.length
    rw [List.length_append]
    unfold appendedRows
    rw [List.length_map, List.length_range]
  · intro r hr
    obtain ⟨i, _, rfl⟩ := List.mem_map.mp hr
    exact List.length_map _ _
  · intro j
    unfold rawColJ
    rw [List.map_append]

/-- C4 (witness): importing a concrete valid 3-row batch (oddly cased
header, one extra column, one unparseable and one blank numeric value) over
a one-row worksheet grows the store and the reloaded in-memory collection
by exactly 3. -/
theorem c4_witness :
    ([[Cell.s "Old", Cell.i 2000, Cell.s "GOL", Cell.s "X", Cell.i 0,
        Cell.i 10, Cell.s "S20"]] ++ appendedRows
      ⟨["Nome", "ANO ", "posicao", "competicao", "gols", "minutagem",
        "categoria", "extra"],
       [[.s "A", .i 2005, .s "ATA", .s "X", .i 1, .i 90, .s "S20", .s "e1"],
        [.s "B", .s "x", .s "ZAG", .s "X", .s "", .i 45, .s "S17", .s "e2"],
        [.s "C", .i 2007, .s "MEI", .s "X", .i 2, .i 30, .s "S20", .s "e3"]]⟩).length
      = 1 + 3 ∧
    (fetch_data (some ⟨JOGADORES_COLS,
        [[Cell.s "Old", Cell.i 2000, Cell.s "GOL", Cell.s "X", Cell.i 0,
          Cell.i 10, Cell.s "S20"]] ++ appendedRows
          ⟨["Nome", "ANO ", "posicao", "competicao", "gols", "minutagem",
            "categoria", "extra"],
           [[.s "A", .i 2005, .s "ATA", .s "X", .i 1, .i 90, .s "S20", .s "e1"],
            [.s "B", .s "x", .s "ZAG", .s "X", .s "", .i 45, .s "S17", .s "e2"],
            [.s "C", .i 2007, .s "MEI", .s "X", .i 2, .i 30, .s "S20", .s "e3"]]⟩⟩)
      JOGADORES_COLS).nrows =
      (fetch_data (some ⟨JOGADORES_COLS,
        [[Cell.s "Old", Cell.i 2000, Cell.s "GOL", Cell.s "X", Cell.i 0,
          Cell.i 10, Cell.s "S20"]]⟩) JOGADORES_COLS).nrows + 3 := by
  have h := c4_bulk_import_appends_exactly_n
    [[Cell.s "Old", Cell.i 2000, Cell.s "GOL", Cell.s "X", Cell.i 0,
      Cell.i 10, Cell.s "S20"]]
    ⟨["Nome", "ANO ", "posicao", "competicao", "gols", "minutagem",
      "categoria", "extra"],
     [[.s "A", .i 2005, .s "ATA", .s "X", .i 1, .i 90, .s "S20", .s "e1"],
      [.s "B", .s "x", .s "ZAG", .s "X", .s "", .i 45, .s "S17", .s "e2"],
      [.s "C", .i 2007, .s "MEI", .s "X", .i 2, .i 30, .s "S20", .s "e3"]]⟩
    (by decide) (by decide) (by decide) (by decide) (by decide) (by decide)
  exact ⟨h.2.1, h.2.2.1⟩
